import Mathlib

/-!
Verification of the EVT (Kinemetrics) binary-format reader
(`obspy/kinemetrics/evt.py`) against its natural-language specification.

The Python module is shallowly embedded.  The opened file is a
`ByteFile` (a length and a byte-valued index function) and the file
pointer is an explicit position, so `fp.read(n)` becomes window
arithmetic; `struct.unpack` is modelled by a small format-item
interpreter; Python exceptions become an explicit error type; and the
mutable decoder objects (`EVT`, `EVT_TAG`, `EVT_HEADER`,
`EVT_FRAME_HEADER`, `EVT_DATA`) become functions threading the only
state that survives between calls (the frame counter `numframe` and
the accumulated `samplingrate`).

The helper base class `EVT_Virtual` (with `setdico`, `unsetdico` and
the field transforms `_time`, `_strnull`, `_array`, `_arraynull`,
`_instrument`) lives in `evt_base.py`, which is not among the sources
under verification; those pieces are modelled from the specification's
SchemaDecoder description and are marked `Modelled from the spec:`
below.
-/

set_option maxRecDepth 100000
set_option linter.unusedVariables false

namespace Evt

/-- Byte order of multi-byte integers, resolved from a tag block's
byte-order flag (`1` = big-endian `>`, `0` = little-endian `<`). -/
inductive ByteOrder
  | big
  | little
deriving DecidableEq

/-- Normalize a value to one byte (file contents are bytes 0..255; the
reduction makes every definition total). -/
def byte (n : ℕ) : ℕ := n % 256

/-- A file opened for reading: its byte count and its contents by
absolute index.  Only indices below `size` are ever read. -/
structure ByteFile where
  size : ℕ
  get : ℕ → ℕ

/-- The byte at index `i`. -/
def ByteFile.byteAt (f : ByteFile) (i : ℕ) : ℕ := byte (f.get i)

/-- The `n` bytes starting at index `pos`, as a list. -/
def ByteFile.bytes (f : ByteFile) (pos n : ℕ) : List ℕ :=
  (List.range n).map (fun m => f.byteAt (pos + m))

/-- How many bytes `fp.read(n)` returns at position `pos`: `n`, or
whatever remains before the end of the file. -/
def ByteFile.avail (f : ByteFile) (pos n : ℕ) : ℕ := min n (f.size - pos)

/-- Big-endian value of a byte list. -/
def beVal (bs : List ℕ) : ℕ := bs.foldl (fun a b => a * 256 + b) 0

/-- Reorder bytes for the requested byte order (struct `>` keeps them,
`<` reverses them). -/
def ordBytes (o : ByteOrder) (bs : List ℕ) : List ℕ :=
  match o with
  | .big => bs
  | .little => bs.reverse

/-- Unsigned integer decoded from bytes with the given order. -/
def uintOf (o : ByteOrder) (bs : List ℕ) : ℕ := beVal (ordBytes o bs)

/-- Two's-complement reading of a `w`-byte unsigned value
(struct's signed integer codes). -/
def toSigned (w : ℕ) (n : ℕ) : ℤ :=
  if (n : ℤ) < 2 ^ (8 * w - 1) then (n : ℤ) else (n : ℤ) - 2 ^ (8 * w)

/-- Python's arithmetic right shift by 8 (`>> 8` on int is floor
division by 256). -/
def shr8 (z : ℤ) : ℤ := Int.fdiv z 256

/-- Python exceptions that the reader can raise, as values.
`typeError` stands for the `TypeError` Python raises while evaluating
`"Bad Header length " + length` (string + int concatenation) before the
intended `EVTBadHeaderError` can be constructed; `structError` is
`struct.error` from an unpack of the wrong byte count; `valueError` is
numpy's shape-mismatch error from `np.hstack`; `nameError` is the
unbound-variable error in the sample loop for an unsupported width. -/
inductive EvtError
  | eof
  | badHeader (msg : String)
  | badData (msg : String)
  | notImplemented (msg : String)
  | typeError
  | structError
  | valueError
  | nameError
  | zeroDivisionError
  | indexError
deriving DecidableEq

/-- `true` exactly on a successful `Except` result. -/
def isOkE {ε α : Type} : Except ε α → Bool
  | .ok _ => true
  | .error _ => false

/-! ## struct.unpack -/

/-- One item of a `struct` format string: `c`, `B`, `b`, `H`, `h`,
`L`/`l` (4 bytes here), `f`, `Ns`, `Nx`. -/
inductive FmtItem
  | char
  | u8
  | s8
  | u16
  | s16
  | u32
  | s32
  | f32
  | str (n : ℕ)
  | pad (n : ℕ)

/-- Byte width of a format item. -/
def itemSize : FmtItem → ℕ
  | .char => 1
  | .u8 => 1
  | .s8 => 1
  | .u16 => 2
  | .s16 => 2
  | .u32 => 4
  | .s32 => 4
  | .f32 => 4
  | .str n => n
  | .pad n => n

/-- Total byte width of a format (struct.calcsize). -/
def fmtSize (fmt : List FmtItem) : ℕ := (fmt.map itemSize).sum

/-- A timestamp as assembled by the `_time` transform: the integer
seconds value paired with the integer milliseconds offset named by the
transform parameter (the source builds `UTCDateTime(value)` plus the
offset; the pair determines that instant). -/
structure PTime where
  seconds : ℤ
  msec : ℤ
deriving DecidableEq

/-- A primitive value produced by unpacking or by a field transform. -/
inductive PVal
  | int (z : ℤ)
  | rat (q : ℚ)
  | str (bs : List ℕ)
  | text (s : String)
  | time (t : PTime)
  | optQ (x : Option ℚ)
  | optS (x : Option (List ℕ))
deriving DecidableEq

/-- Integer content of a value (0 for non-integers). -/
def PVal.asZ : PVal → ℤ
  | .int z => z
  | _ => 0

/-- Numeric content of a value as a rational. -/
def PVal.asQ : PVal → ℚ
  | .int z => (z : ℚ)
  | .rat q => q
  | _ => 0

/-- Byte-string content of a value. -/
def PVal.asS : PVal → List ℕ
  | .str bs => bs
  | _ => []

/-- Natural-number content of a value (unsigned fields). -/
def PVal.asN : PVal → ℕ := fun v => v.asZ.toNat

/-- Exact rational value of an IEEE-754 binary32 bit pattern.
Exponent 255 (infinities and NaNs) falls outside the rational model and
is mapped to 0; no decoded file field relies on it. -/
def decodeF32 (n : ℕ) : ℚ :=
  let s : ℕ := n / 2 ^ 31 % 2
  let e : ℕ := n / 2 ^ 23 % 256
  let m : ℕ := n % 2 ^ 23
  let sign : ℚ := if s = 1 then -1 else 1
  if e = 0 then sign * (m : ℚ) / 2 ^ 149
  else if e = 255 then 0
  else sign * (((2 ^ 23 + m : ℕ) * 2 ^ e : ℕ) : ℚ) / 2 ^ 150

/-- Values produced by one format item from exactly its bytes. -/
def readVal (o : ByteOrder) (it : FmtItem) (bs : List ℕ) : List PVal :=
  match it with
  | .char => [.str (bs.take 1)]
  | .u8 => [.int (beVal bs)]
  | .s8 => [.int (toSigned 1 (beVal bs))]
  | .u16 => [.int (uintOf o bs)]
  | .s16 => [.int (toSigned 2 (uintOf o bs))]
  | .u32 => [.int (uintOf o bs)]
  | .s32 => [.int (toSigned 4 (uintOf o bs))]
  | .f32 => [.rat (decodeF32 (uintOf o bs))]
  | .str _ => [.str bs]
  | .pad _ => []

/-- Sequentially unpack a format from the bytes at `pos`. -/
def unpackGo (o : ByteOrder) (f : ByteFile) : List FmtItem → ℕ → List PVal
  | [], _ => []
  | it :: rest, pos => readVal o it (f.bytes pos (itemSize it)) ++ unpackGo o f rest (pos + itemSize it)

/-- `struct.unpack(order + fmt, buff)` where `buff` is the `len`-byte
window at `pos`: the window length must equal `calcsize` exactly, else
`struct.error` (`none`). -/
def unpackFmt (o : ByteOrder) (fmt : List FmtItem) (f : ByteFile) (pos len : ℕ) :
    Option (List PVal) :=
  if len = fmtSize fmt then some (unpackGo o f fmt pos) else none

/-! ## Format strings of evt.py -/

/-- `FRAME_STRUCT = b"BBHHLHHBBHB13s"` (32 bytes, 12 values). -/
def FRAME_STRUCT : List FmtItem :=
  [.u8, .u8, .u16, .u16, .u32, .u16, .u16, .u8, .u8, .u16, .u8, .str 13]

/-- The format `b"cBBBLHHHH"` used for the 16-byte tag block. -/
def TAG_STRUCT : List FmtItem :=
  [.char, .u8, .u8, .u8, .u32, .u16, .u16, .u16, .u16]

/-- `HEADER_STRUCT1 = b"3sB2H3B3x6Hh2Hh22x3B5x2H4hH2x2h6L16x"` (0x00-0x7C, values 0-34). -/
def HEADER_STRUCT1 : List FmtItem :=
  [.str 3, .u8, .u16, .u16, .u8, .u8, .u8, .pad 3,
   .u16, .u16, .u16, .u16, .u16, .u16, .s16, .u16, .u16, .s16, .pad 22,
   .u8, .u8, .u8, .pad 5, .u16, .u16, .s16, .s16, .s16, .s16, .u16, .pad 2,
   .s16, .s16, .u32, .u32, .u32, .u32, .u32, .u32, .pad 16]

/-- One channel block of `HEADER_STRUCT2 = b"lLlL2l12x"*12` (0x7C-0x22C, values 35-106). -/
def HEADER_STRUCT2_BLOCK : List FmtItem :=
  [.s32, .u32, .s32, .u32, .s32, .s32, .pad 12]

/-- `HEADER_STRUCT2`, the block repeated 12 times. -/
def HEADER_STRUCT2 : List FmtItem := (List.replicate 12 HEADER_STRUCT2_BLOCK).flatten

/-- `HEADER_STRUCT3 = b"3L4H2L4x2H5s33sh2f4h4B2LB17s2B2B6xh22x"` (0x22C-0x2C8, values 107-139). -/
def HEADER_STRUCT3 : List FmtItem :=
  [.u32, .u32, .u32, .u16, .u16, .u16, .u16, .u32, .u32, .pad 4,
   .u16, .u16, .str 5, .str 33, .s16, .f32, .f32, .s16, .s16, .s16, .s16,
   .u8, .u8, .u8, .u8, .u32, .u32, .u8, .str 17, .u8, .u8, .u8, .u8,
   .pad 6, .s16, .pad 22]

/-- One channel block of `HEADER_STRUCT4 = b"5sbH5h3H4BHBx8f2B10x"*12` (0x2C8-0x658, values 140-463). -/
def HEADER_STRUCT4_BLOCK : List FmtItem :=
  [.str 5, .s8, .u16, .s16, .s16, .s16, .s16, .s16, .u16, .u16, .u16,
   .u8, .u8, .u8, .u8, .u16, .u8, .pad 1,
   .f32, .f32, .f32, .f32, .f32, .f32, .f32, .f32, .u8, .u8, .pad 10]

/-- `HEADER_STRUCT4`, the block repeated 12 times. -/
def HEADER_STRUCT4 : List FmtItem := (List.replicate 12 HEADER_STRUCT4_BLOCK).flatten

theorem fmtSize_frame_struct : fmtSize FRAME_STRUCT = 32 := by decide

theorem fmtSize_tag_struct : fmtSize TAG_STRUCT = 16 := by decide

theorem fmtSize_header_struct1 : fmtSize HEADER_STRUCT1 = 0x7c := by decide

theorem fmtSize_header_struct2 : fmtSize HEADER_STRUCT2 = 0x22c - 0x7c := by decide

theorem fmtSize_header_struct3 : fmtSize HEADER_STRUCT3 = 0x2c8 - 0x22c := by decide

theorem fmtSize_header_struct4 : fmtSize HEADER_STRUCT4 = 0x658 - 0x2c8 := by decide

/-! ## Python float arithmetic for the data-length check

`EVT_DATA.read` compares the declared length with
`num = (samplerate / 10) * numbyte * numchan`, evaluated under
`from __future__ import division`: `samplerate / 10` is a correctly
rounded IEEE-754 binary64 value and each `*` rounds again, while the
final `length != num` compares the int with the float exactly.  The
three roundings are modelled bit-exactly below; a float is carried as
a dyadic pair `(m, sc)` denoting `m / 2^sc`, and everything on the
evaluation path is plain natural-number arithmetic. -/

/-- Binary logarithm by structural recursion on fuel (so that it
evaluates inside the kernel); `nlog2 n` is `⌊log₂ n⌋` for `n ≥ 1`. -/
def log2F : ℕ → ℕ → ℕ
  | 0, _ => 0
  | fuel + 1, n => if n ≤ 1 then 0 else log2F fuel (n / 2) + 1

/-- `⌊log₂ n⌋` for `n ≥ 1` (and 0 at 0). -/
def nlog2 (n : ℕ) : ℕ := log2F n n

/-- Integer division rounded to nearest, ties to even — the rounding
of IEEE-754 round-to-nearest applied to `a / b`. -/
def rhedDiv (a b : ℕ) : ℕ :=
  if 2 * (a % b) < b then a / b
  else if b < 2 * (a % b) then a / b + 1
  else if a / b % 2 = 0 then a / b else a / b + 1

/-- `⌊log₂ (n / d)⌋` for positive naturals `n`, `d`. -/
def qlog2 (n d : ℕ) : ℤ :=
  if 2 ^ nlog2 n * d ≤ 2 ^ nlog2 d * n then (nlog2 n : ℤ) - nlog2 d
  else (nlog2 n : ℤ) - nlog2 d - 1

/-- The correctly rounded (round-to-nearest, ties-to-even) binary64
value of the fraction `n / d`, as a dyadic pair `(m, sc)` denoting
`m / 2^sc`: the mantissa is the nearest 53-bit integer to
`(n / d) · 2^(52 - e)` where `e = ⌊log₂ (n/d)⌋`.  Exponent overflow
and subnormals cannot occur for the magnitudes the reader computes
(between 1/10 and a few hundred thousand). -/
def toF53 (n d : ℕ) : ℕ × ℤ :=
  if n = 0 then (0, 0)
  else
    if qlog2 n d ≤ 52 then
      (rhedDiv (n * 2 ^ (52 - qlog2 n d).toNat) d, 52 - qlog2 n d)
    else
      (rhedDiv n (d * 2 ^ (qlog2 n d - 52).toNat), 52 - qlog2 n d)

/-- Multiplication of a binary64 value by a small Python int: the int
converts exactly, the product is rounded back to binary64. -/
def mulF53 (x : ℕ × ℤ) (k : ℕ) : ℕ × ℤ :=
  if 0 ≤ x.2 then toF53 (x.1 * k) (2 ^ x.2.toNat)
  else toF53 (x.1 * k * 2 ^ (-x.2).toNat) 1

/-- The float `num = (samplerate / 10) * numbyte * numchan` exactly as
the Python expression evaluates it. -/
def pyNumF (samplerate numbyte numchan : ℕ) : ℕ × ℤ :=
  mulF53 (mulF53 (toF53 samplerate 10) numbyte) numchan

/-- Python's `length != num` is an exact int-to-float comparison:
`length = m / 2^sc` as a statement about naturals. -/
def lenEqNum (length : ℕ) (x : ℕ × ℤ) : Bool :=
  length * 2 ^ x.2.toNat = x.1 * 2 ^ (-x.2).toNat

/-- The exact rational value of a dyadic pair (used only in the
correctness lemmas about the float model). -/
def valD (x : ℕ × ℤ) : ℚ := (x.1 : ℚ) / 2 ^ x.2

/-! ## EVT_DATA -/

/-- Geometry returned by `EVT_FRAME_HEADER.read`:
`(samplingrate, samplesize, blocktime, channels())`. -/
structure FrameRet where
  samplingrate : ℕ
  samplesize : ℕ
  blocktime : PTime
  numchan : ℕ
deriving DecidableEq

/-- `unpack(b">i", bs)`: a big-endian signed 32-bit integer; exactly
4 bytes are required, else `struct.error`. -/
def unpack_i32be (bs : List ℕ) : Except EvtError ℤ :=
  if bs.length = 4 then .ok (toSigned 4 (beVal bs)) else .error .structError

/-- One sample of `EVT_DATA.read`: width 2 appends two zero bytes, width
3 appends one, both then shift the signed big-endian 32-bit value right
by 8; width 4 takes the value as is.  Any other width leaves Python's
`val` unbound (`NameError` on the following `append`). -/
def decodeSample (numbyte : ℕ) (bs : List ℕ) : Except EvtError ℤ :=
  if numbyte = 2 then (unpack_i32be (bs ++ [0, 0])).map shr8
  else if numbyte = 3 then (unpack_i32be (bs ++ [0])).map shr8
  else if numbyte = 4 then unpack_i32be bs
  else .error .nameError

/-- `EVT_DATA.read(fp, length, endian, param)` with the file pointer at
`pos`.  Reads `length` bytes into `buff` (the window of `f.avail pos
length` bytes at `pos`), checks `length` against
`num = (samplerate / 10) * numbyte * numchan` (Python true division:
a binary64 float, modelled bit-exactly by `pyNumF`; `length != num`
compares the int to the float exactly, modelled by `lenEqNum`), then
unpacks the channel-minor interleaved samples; the slice
`buff[i*w : i*w + w]` clamps at the end of the window just as a Python
slice does.  Because of the float rounding the check is NOT the exact
`10 * length = samplerate * numbyte * numchan`: when the float `num`
picks up rounding error (e.g. rate 1, width 3, 10 channels gives
`num = 3.0000000000000004`), the code rejects the exactly matching
length; the converse cannot happen for the geometry the reader
produces (`pyNum_decides` below: float equality forces exact equality
whenever `rate·width·channels ≤ 2^40`).  The `endian` argument is
accepted but
never used: samples are always unpacked with `b">i"`.  The double loop
(`j` outer, `k` inner, appending to `data[k]`) is rendered
channel-by-channel; the success value is identical and every unpack
failure yields the same payload-free `structError`. -/
def EVT_DATA.read (f : ByteFile) (pos : ℕ) (length : ℕ) (endian : ByteOrder)
    (param : FrameRet) : Except EvtError (List (List ℤ)) :=
  let len := f.avail pos length
  let samplerate := param.samplingrate
  let numbyte := param.samplesize
  let numchan := param.numchan
  if lenEqNum length (pyNumF samplerate numbyte numchan) = false then
    .error (.badData "Bad data length")
  else
    (List.range numchan).mapM (fun k =>
      (List.range (samplerate / 10)).mapM (fun j =>
        let i := j * numchan + k
        decodeSample numbyte
          (f.bytes (pos + min (i * numbyte) len) (min (i * numbyte + numbyte) len - min (i * numbyte) len))))

/-! ## EVT_TAG -/

/-- The fields of a 16-byte tag block, as set by `setdico` from the
`b"cBBBLHHHH"` unpack (positions 1-8 of the value tuple; position 9
for `endian` is out of range for the nine unpacked values and is
instead set directly from the resolved order, exactly as in
`EVT_TAG.read`). -/
structure TagRec where
  order : ℕ
  version : ℕ
  instrument : ℕ
  ttype : ℕ
  length : ℕ
  datalength : ℕ
  id : ℕ
  checksum : ℕ
  endian : ByteOrder
deriving DecidableEq

/-- `EVT_TAG.verify`: the block type must be 1 or 2, and a type-1 (file
header) tag must declare length 2040 or 2736. -/
def EVT_TAG.verify (t : TagRec) : Bool :=
  if ¬(t.ttype = 1 ∨ t.ttype = 2) then false
  else if t.ttype = 1 ∧ ¬(t.length = 2040 ∨ t.length = 2736) then false
  else true

/-- `EVT_TAG.read(fp)` at position `pos`: reads 16 bytes (fewer
available ⇒ `EVTEOFError`), checks the sync byte (0 ⇒ `EVTEOFError`,
anything but `K` = 75 ⇒ `EVTBadHeaderError('Sync error')`), resolves
the byte order from byte 1 (1 ⇒ big, 0 ⇒ little, anything else a bare
`EVTBadHeaderError`), unpacks the block with that order and validates
it. -/
def EVT_TAG.read (f : ByteFile) (pos : ℕ) : Except EvtError TagRec :=
  if f.size - pos < 16 then .error .eof
  else
    let sync := f.byteAt pos
    let byteOrder := f.byteAt (pos + 1)
    if sync = 0 then .error .eof
    else if sync ≠ 75 then .error (.badHeader "Sync error")
    else
      match (if byteOrder = 1 then some ByteOrder.big
             else if byteOrder = 0 then some ByteOrder.little
             else none) with
      | none => .error (.badHeader "")
      | some endian =>
        match unpackFmt endian TAG_STRUCT f pos 16 with
        | none => .error .structError
        | some vals =>
          let t : TagRec :=
            { order := (vals.getD 1 (.int 0)).asN
              version := (vals.getD 2 (.int 0)).asN
              instrument := (vals.getD 3 (.int 0)).asN
              ttype := (vals.getD 4 (.int 0)).asN
              length := (vals.getD 5 (.int 0)).asN
              datalength := (vals.getD 6 (.int 0)).asN
              id := (vals.getD 7 (.int 0)).asN
              checksum := (vals.getD 8 (.int 0)).asN
              endian := endian }
          if EVT_TAG.verify t then .ok t else .error (.badHeader "Bad Tag values")

/-! ## EVT_FRAME_HEADER -/

/-- The fields of a 32-byte frame header, from the `FRAME_STRUCT`
unpack.  `blocktime` already carries the `_time` transform (see below);
`instrumentcode` keeps the raw code (the `_instrument` transform is not
described by the specification). -/
structure FrameRec where
  frametype : ℕ
  instrumentcode : ℕ
  recorderid : ℕ
  framesize : ℕ
  blocktime : PTime
  channelbitmap : ℕ
  streampar : ℕ
  framestatus : ℕ
  framestatus2 : ℕ
  msec : ℕ
  channelbitmap1 : ℕ
  timecode : List ℕ
deriving DecidableEq

/-- Modelled from the spec: the `timestampAssemble` transform of
`EVT_Virtual` (`_time`) combines an integer seconds field with the
integer milliseconds field named by its parameter into one timestamp;
a parameter of -1 means the raw value is kept (handled at use sites). -/
def timeAssemble (seconds msec : ℤ) : PTime := ⟨seconds, msec⟩

/-- `EVT_FRAME_HEADER.verify`: the frame type must be 3, 4 or 5. -/
def EVT_FRAME_HEADER.verify (f : FrameRec) : Bool :=
  f.frametype = 3 ∨ f.frametype = 4 ∨ f.frametype = 5

/-- `EVT_FRAME_HEADER.channels()`: frame type 4 (16-channel layout) is
not implemented; otherwise the number of set bits among the low 12 bits
of the channel bitmap. -/
def EVT_FRAME_HEADER.channels (f : FrameRec) : Except EvtError ℕ :=
  if f.frametype = 4 then .error (.notImplemented "16 Channels not implemented")
  else .ok ((List.range 12).countP (fun i => f.channelbitmap.testBit i))

/-- The `FrameRec` built by `setdico` from the 12 unpacked frame
values (`setdico` is modelled from the spec as positional field
assignment; `blocktime` carries the `_time` transform with its
companion `msec` at position 9). -/
def frameRecOf (vals : List PVal) : FrameRec :=
  { frametype := (vals.getD 0 (.int 0)).asN
    instrumentcode := (vals.getD 1 (.int 0)).asN
    recorderid := (vals.getD 2 (.int 0)).asN
    framesize := (vals.getD 3 (.int 0)).asN
    blocktime := timeAssemble (vals.getD 4 (.int 0)).asZ (vals.getD 9 (.int 0)).asZ
    channelbitmap := (vals.getD 5 (.int 0)).asN
    streampar := (vals.getD 6 (.int 0)).asN
    framestatus := (vals.getD 7 (.int 0)).asN
    framestatus2 := (vals.getD 8 (.int 0)).asN
    msec := (vals.getD 9 (.int 0)).asN
    channelbitmap1 := (vals.getD 10 (.int 0)).asN
    timecode := (vals.getD 11 (.str [])).asS }

/-- `EVT_FRAME_HEADER.analyse_frame32(buff)` on the `len`-byte window at
`pos`: increments the persistent frame counter first, then unpacks the
12 frame fields and validates the frame type. -/
def EVT_FRAME_HEADER.analyse_frame32 (o : ByteOrder) (numframe : ℕ) (f : ByteFile)
    (pos len : ℕ) : ℕ × Except EvtError FrameRec :=
  match unpackFmt o FRAME_STRUCT f pos len with
  | none => (numframe + 1, .error .structError)
  | some vals =>
    if EVT_FRAME_HEADER.verify (frameRecOf vals) then (numframe + 1, .ok (frameRecOf vals))
    else (numframe + 1, .error (.badHeader "Bad Frame values"))

/-- The sample-width derivation of `EVT_FRAME_HEADER.read`:
`samplesize = (framestatus >> 6) + 1`, replaced by the default 3 when
the derived value is not 2, 3 or 4. -/
def sampleSizeOf (framestatus : ℕ) : ℕ :=
  if framestatus / 64 + 1 = 2 ∨ framestatus / 64 + 1 = 3 ∨ framestatus / 64 + 1 = 4 then
    framestatus / 64 + 1
  else 3

/-- `EVT_FRAME_HEADER.read(fp, length, endian)` at position `pos`:
reads `length` bytes; a length other than 32 reaches
`raise EVTBadHeaderError("Bad Header length " + length)` whose message
concatenation raises `TypeError` (and does not touch the counter, since
`analyse_frame32` is never entered).  On success returns
`(streampar & 4095, samplesize, blocktime, channels())`. -/
def EVT_FRAME_HEADER.read (f : ByteFile) (pos : ℕ) (length : ℕ) (endian : ByteOrder)
    (numframe : ℕ) : ℕ × Except EvtError FrameRet :=
  let len := f.avail pos length
  if length = 32 then
    match EVT_FRAME_HEADER.analyse_frame32 endian numframe f pos len with
    | (nf, .error e) => (nf, .error e)
    | (nf, .ok fr) =>
      let samplingrate := fr.streampar % 4096
      let samplesize := sampleSizeOf fr.framestatus
      match EVT_FRAME_HEADER.channels fr with
      | .error e => (nf, .error e)
      | .ok ch => (nf, .ok ⟨samplingrate, samplesize, fr.blocktime, ch⟩)
  else (numframe, .error .typeError)

/-! ## EVT_HEADER -/

/-- Modelled from the spec: the `stringTrim` transform (`_strnull`)
strips trailing null bytes from a fixed-width byte string.  The decoded
text is kept as its byte list. -/
def strnull (bs : List ℕ) : List ℕ := (bs.reverse.dropWhile (· = 0)).reverse

/-- `EVT_HEADER._gpsstatus` (defined in evt.py itself): collect the
labels of all set bits, each followed by a space, in ascending bitmask
order. -/
def gpsstatusStr (v : ℕ) : String :=
  [(0, "Checking"), (1, "Present"), (2, "Error"), (3, "Failed"),
   (4, "Not Locked"), (5, "ON")].foldl
    (fun acc p => if v.testBit p.1 then acc ++ p.2 ++ " " else acc) ""

/-- Modelled from the spec: the sentinel test of
`perChannelArrayNullable` (`_arraynull`): a raw value with all bits set
for its width (-1 for a signed field, 65535 for an unsigned 16-bit
field, an all-0xFF byte string) means "field not present". -/
def pvalIsSentinel : PVal → Bool
  | .int z => z = -1 ∨ z = 65535
  | .str bs => ¬bs.isEmpty ∧ bs.all (· = 255)
  | _ => false

/-- Modelled from the spec: `perChannelArray(12, 27, base)` (`_array`):
element `i` is `values[base + i*27 - baseOffset]`, as a number. -/
def arrQ (vals : List PVal) (base off : ℕ) : List ℚ :=
  (List.range 12).map (fun i => (vals.getD (base + 27 * i - off) (.int 0)).asQ)

/-- Modelled from the spec: `perChannelArrayNullable` over numeric
fields (`_arraynull`). -/
def arrNullQ (vals : List PVal) (base off : ℕ) : List (Option ℚ) :=
  (List.range 12).map (fun i =>
    let v := vals.getD (base + 27 * i - off) (.int 0)
    if pvalIsSentinel v then none else some v.asQ)

/-- Modelled from the spec: `perChannelArrayNullable` over byte-string
fields (`_arraynull` on the `5s` channel ids). -/
def arrNullS (vals : List PVal) (base off : ℕ) : List (Option (List ℕ)) :=
  (List.range 12).map (fun i =>
    let v := vals.getD (base + 27 * i - off) (.str [])
    if pvalIsSentinel v then none else some v.asS)

/-- The named fields of the 2040-byte (12-channel) file header, one per
entry of `EVT_HEADER.HEADER`. -/
structure HeaderRec where
  instrument : ℤ
  a2dbits : ℤ
  samplebytes : ℤ
  installedchan : ℤ
  maxchannels : ℤ
  batteryvoltage : ℤ
  temperature : ℤ
  gpsstatus : String
  gpslastlock : ℤ
  starttime : PTime
  triggertime : PTime
  duration : ℤ
  nscans : ℤ
  serialnumber : ℤ
  nchannels : ℤ
  stnid : List ℕ
  comment : List ℕ
  elevation : ℤ
  latitude : ℚ
  longitude : ℚ
  chan_id : List (Option (List ℕ))
  chan_north : List (Option ℚ)
  chan_east : List (Option ℚ)
  chan_up : List (Option ℚ)
  chan_azimuth : List (Option ℚ)
  chan_gain : List ℚ
  chan_fullscale : List ℚ
  chan_sensitivity : List ℚ
  chan_damping : List ℚ
  chan_natfreq : List ℚ
  chan_calcoil : List ℚ
  chan_range : List ℚ
  chan_sensorgain : List ℚ
deriving DecidableEq

/-- The Python slice `buff[a:b]` of the `len`-byte window at `pos`, as
a window again: it starts at `pos + min a len` and holds
`min b len - min a len` bytes (a slice clamps at the end of the
buffer). -/
def sliceStart (pos len a : ℕ) : ℕ := pos + min a len

/-- Length of the Python slice `buff[a:b]` of a `len`-byte buffer. -/
def sliceLen (len a b : ℕ) : ℕ := min b len - min a len

/-- `EVT_HEADER.analyse_header12(buff)` on the `len`-byte window at
`pos`: the four used sub-ranges (0x00-0x7C, 0x7C-0x22C, 0x22C-0x2C8,
0x2C8-0x658) are unpacked with the resolved byte order and fed to
`setdico` with base offsets 0, 35, 107 and 140.  `setdico` is modelled
from the spec: each `HEADER` entry takes `values[position - baseOffset]`
from the pass whose range covers its position (the second pass covers
positions 35-106, where no field lives, but its unpack must still
succeed), applying the entry's transform.  The three trailing ranges
are commented out in the source and contribute nothing. -/
def EVT_HEADER.analyse_header12 (endian : ByteOrder) (f : ByteFile) (pos len : ℕ) :
    Except EvtError HeaderRec :=
  match unpackFmt endian HEADER_STRUCT1 f (sliceStart pos len 0) (sliceLen len 0 0x7c) with
  | none => .error .structError
  | some vals1 =>
    match unpackFmt endian HEADER_STRUCT2 f (sliceStart pos len 0x7c) (sliceLen len 0x7c 0x22c) with
    | none => .error .structError
    | some _vals2 =>
      match unpackFmt endian HEADER_STRUCT3 f (sliceStart pos len 0x22c) (sliceLen len 0x22c 0x2c8) with
      | none => .error .structError
      | some vals3 =>
        match unpackFmt endian HEADER_STRUCT4 f (sliceStart pos len 0x2c8) (sliceLen len 0x2c8 0x658) with
        | none => .error .structError
        | some vals4 =>
          let g1 := fun i => vals1.getD i (.int 0)
          let g3 := fun i => vals3.getD (i - 107) (.int 0)
          .ok
            { instrument := (g1 1).asZ
              a2dbits := (g1 4).asZ
              samplebytes := (g1 5).asZ
              installedchan := (g1 7).asZ
              maxchannels := (g1 8).asZ
              batteryvoltage := (g1 13).asZ
              temperature := (g1 16).asZ
              gpsstatus := gpsstatusStr (g1 18).asN
              gpslastlock := (g1 33).asZ
              starttime := timeAssemble (g3 107).asZ (g3 112).asZ
              triggertime := timeAssemble (g3 108).asZ (g3 113).asZ
              duration := (g3 109).asZ
              nscans := (g3 115).asZ
              serialnumber := (g3 116).asZ
              nchannels := (g3 117).asZ
              stnid := strnull (g3 118).asS
              comment := strnull (g3 119).asS
              elevation := (g3 120).asZ
              latitude := (g3 121).asQ
              longitude := (g3 122).asQ
              chan_id := arrNullS vals4 140 140
              chan_north := arrNullQ vals4 143 140
              chan_east := arrNullQ vals4 144 140
              chan_up := arrNullQ vals4 145 140
              chan_azimuth := arrNullQ vals4 147 140
              chan_gain := arrQ vals4 150 140
              chan_fullscale := arrQ vals4 157 140
              chan_sensitivity := arrQ vals4 158 140
              chan_damping := arrQ vals4 159 140
              chan_natfreq := arrQ vals4 160 140
              chan_calcoil := arrQ vals4 164 140
              chan_range := arrQ vals4 165 140
              chan_sensorgain := arrQ vals4 166 140 }

/-- `EVT_HEADER.read(fp, length, endian)` at position `pos`: reads
`length` bytes; 2040 selects the 12-channel layout, 2736 raises
`NotImplementedError("16 Channel not implemented")`, and any other
length reaches `raise EVTBadHeaderError("Bad Header length " + length)`
whose str + int message concatenation raises `TypeError` first. -/
def EVT_HEADER.read (f : ByteFile) (pos : ℕ) (length : ℕ) (endian : ByteOrder) :
    Except EvtError HeaderRec :=
  let len := f.avail pos length
  if length = 2040 then EVT_HEADER.analyse_header12 endian f pos len
  else if length = 2736 then .error (.notImplemented "16 Channel not implemented")
  else .error .typeError

/-- `EVT_HEADER.makeobspydico(numchan)`: project every `HEADER` field to
one channel; list-valued fields are indexed (Python raises `IndexError`
beyond the 12 entries of the channel arrays), scalars pass through.
The entries follow the source's textual order (a Python dict imposes no
semantic order). -/
def EVT_HEADER.makeobspydico (h : HeaderRec) (numchan : ℕ) :
    Except EvtError (List (String × PVal)) :=
  if numchan < 12 then
    .ok
      [("instrument", .int h.instrument),
       ("a2dbits", .int h.a2dbits),
       ("samplebytes", .int h.samplebytes),
       ("installedchan", .int h.installedchan),
       ("maxchannels", .int h.maxchannels),
       ("batteryvoltage", .int h.batteryvoltage),
       ("temperature", .int h.temperature),
       ("gpsstatus", .text h.gpsstatus),
       ("gpslastlock", .int h.gpslastlock),
       ("starttime", .time h.starttime),
       ("triggertime", .time h.triggertime),
       ("duration", .int h.duration),
       ("nscans", .int h.nscans),
       ("serialnumber", .int h.serialnumber),
       ("nchannels", .int h.nchannels),
       ("stnid", .str h.stnid),
       ("comment", .str h.comment),
       ("elevation", .int h.elevation),
       ("latitude", .rat h.latitude),
       ("longitude", .rat h.longitude),
       ("chan_id", .optS (h.chan_id.getD numchan none)),
       ("chan_north", .optQ (h.chan_north.getD numchan none)),
       ("chan_east", .optQ (h.chan_east.getD numchan none)),
       ("chan_up", .optQ (h.chan_up.getD numchan none)),
       ("chan_azimuth", .optQ (h.chan_azimuth.getD numchan none)),
       ("chan_gain", .rat (h.chan_gain.getD numchan 0)),
       ("chan_fullscale", .rat (h.chan_fullscale.getD numchan 0)),
       ("chan_sensitivity", .rat (h.chan_sensitivity.getD numchan 0)),
       ("chan_damping", .rat (h.chan_damping.getD numchan 0)),
       ("chan_natfreq", .rat (h.chan_natfreq.getD numchan 0)),
       ("chan_calcoil", .rat (h.chan_calcoil.getD numchan 0)),
       ("chan_range", .rat (h.chan_range.getD numchan 0)),
       ("chan_sensorgain", .rat (h.chan_sensorgain.getD numchan 0))]
  else .error .indexError

/-! ## EVT.readFile -/

/-- The decoder state that survives between calls on one `EVT`
instance: `self.samplingrate` (initialized to 0 in `EVT.__init__`) and
the frame counter `self.EFrame.numframe` (initialized to 0 in
`EVT_FRAME_HEADER.__init__` and never reset). -/
structure EVTState where
  samplingrate : ℕ
  numframe : ℕ
deriving DecidableEq

/-- The state a freshly constructed `EVT()` starts with. -/
def EVT.init : EVTState := ⟨0, 0⟩

/-- The sampling-rate bookkeeping of the read loop: a zero accumulated
rate adopts the frame's rate, a nonzero one must be matched exactly. -/
def rateStep (cur r : ℕ) : Except EvtError ℕ :=
  if cur = 0 then .ok r
  else if cur ≠ r then .error (.badHeader "Sampling rate not constant")
  else .ok cur

/-- The final check of `readFile`:
`if (self.EFrame.count() != self.EHeader.duration): raise EVTBadDataError("Bad number of blocks")`. -/
def blocksCheck (numframe : ℕ) (duration : ℤ) : Except EvtError Unit :=
  if (numframe : ℤ) ≠ duration then .error (.badData "Bad number of blocks") else .ok ()

/-- `np.hstack((self.data, npdata))`: appends the new per-channel
columns.  numpy raises a shape error when the channel counts differ or
when the new block is the 1-D empty array (`numchan = 0`). -/
def hstackE (acc datal : List (List ℤ)) : Except EvtError (List (List ℤ)) :=
  if datal.length = acc.length ∧ datal.length ≠ 0 then
    .ok (List.zipWith (· ++ ·) acc datal)
  else .error .valueError

/-- `EVT.calibration()`: divides every sample of channel `i` by
`(8388608.0 / fullscale[i]) * sensitivity[i] / 9.81`.  Python raises
`ZeroDivisionError` on a zero full scale and `IndexError` beyond the 12
channel-array entries.  Floats are idealized as exact rationals (9.81
becomes 981/100); numpy's division of an array by zero (zero
sensitivity) yields infinities outside the rational model and is
rendered by Lean's `q / 0 = 0`. -/
def EVT.calibration (hdr : HeaderRec) (data : List (List ℚ)) : Except EvtError (List (List ℚ)) :=
  (List.range hdr.nchannels.toNat).mapM (fun i =>
    if 12 ≤ i then .error .indexError
    else
      let fullscale := hdr.chan_fullscale.getD i 0
      if fullscale = 0 then .error .zeroDivisionError
      else
        let calibV : ℚ := 8388608 / fullscale
        let calibMKS : ℚ := calibV * hdr.chan_sensitivity.getD i 0 / (981 / 100)
        .ok ((data.getD i []).map (· / calibMKS)))

/-- The recording handed to the external time-series collaborator: per
channel a sample sequence, plus the shared sampling rate, start time,
station id (nulls removed, as at the use site) and the per-channel
metadata projections.  The obspy `Trace`/`Stream` containers themselves
are outside the verified core. -/
structure Recording where
  nchannels : ℕ
  data : List (List ℚ)
  station : List ℕ
  samplingrate : ℕ
  starttime : PTime
  perchan : List (List (String × PVal))
deriving DecidableEq

/-- The trace-building loop at the end of `readFile`. -/
def mkTraces (hdr : HeaderRec) (samplingrate : ℕ) (data : List (List ℚ)) :
    Except EvtError Recording :=
  match (List.range hdr.nchannels.toNat).mapM (EVT_HEADER.makeobspydico hdr) with
  | .error e => .error e
  | .ok dicos =>
    .ok { nchannels := hdr.nchannels.toNat
          data := data
          station := hdr.stnid.filter (· ≠ 0)
          samplingrate := samplingrate
          starttime := hdr.starttime
          perchan := dicos }

/-- The file position after the tag and frame-header reads of one loop
iteration (each read advances by the bytes it could take). -/
def loopPos2 (f : ByteFile) (pos : ℕ) (tag : TagRec) : ℕ :=
  pos + f.avail pos 16 + f.avail (pos + f.avail pos 16) tag.length

/-- The file position after the tag, frame-header and data reads of
one loop iteration. -/
def loopPos3 (f : ByteFile) (pos : ℕ) (tag : TagRec) : ℕ :=
  loopPos2 f pos tag + f.avail (loopPos2 f pos tag) tag.datalength

/-- One iteration of the `while True` loop of `readFile`: read a tag
(only `EVTEOFError` breaks the loop, `inl` with the accumulator so
far), decode the frame header with the byte order fixed at the start
of the decode, check the sampling rate, read the data block, append
it.  `inl` is a loop exit (normal or error), `inr` carries the state,
accumulator and file position into the next iteration. -/
def readStep (o : ByteOrder) (f : ByteFile) (st : EVTState) (acc : List (List ℤ))
    (pos : ℕ) :
    (EVTState × Except EvtError (List (List ℤ))) ⊕ (EVTState × List (List ℤ) × ℕ) :=
  match EVT_TAG.read f pos with
  | .error .eof => .inl (st, .ok acc)
  | .error e => .inl (st, .error e)
  | .ok tag =>
    match EVT_FRAME_HEADER.read f (pos + f.avail pos 16) tag.length o st.numframe with
    | (nf, .error e) => .inl (⟨st.samplingrate, nf⟩, .error e)
    | (nf, .ok ret) =>
      match rateStep st.samplingrate ret.samplingrate with
      | .error e => .inl (⟨st.samplingrate, nf⟩, .error e)
      | .ok sr =>
        match EVT_DATA.read f (loopPos2 f pos tag) tag.datalength o ret with
        | .error e => .inl (⟨sr, nf⟩, .error e)
        | .ok datal =>
          match hstackE acc datal with
          | .error e => .inl (⟨sr, nf⟩, .error e)
          | .ok acc' => .inr (⟨sr, nf⟩, acc', loopPos3 f pos tag)

/-- Iterate a loop body until it exits, with explicit fuel.  Every
`inr` step of the bodies used here moves the file position forward by
at least the 16 tag bytes, so the fuel supplied by `readLoop` (one
more than the file size) can never run out; the fuel-exhaustion branch
(returning as at end of stream) is unreachable from `readLoop`, as
`runSteps_fuel_irrel` makes precise. -/
def runSteps
    (step : EVTState → List (List ℤ) → ℕ →
      (EVTState × Except EvtError (List (List ℤ))) ⊕ (EVTState × List (List ℤ) × ℕ)) :
    ℕ → EVTState → List (List ℤ) → ℕ → EVTState × Except EvtError (List (List ℤ))
  | 0, st, acc, _ => (st, .ok acc)
  | fuel + 1, st, acc, pos =>
    match step st acc pos with
    | .inl r => r
    | .inr (st', acc', pos') => runSteps step fuel st' acc' pos'

/-- The read loop of `readFile`, with enough fuel for any position in
the file. -/
def readLoop (o : ByteOrder) (st : EVTState) (acc : List (List ℤ)) (f : ByteFile)
    (pos : ℕ) : EVTState × Except EvtError (List (List ℤ)) :=
  runSteps (readStep o f) (f.size + 1) st acc pos

deriving instance DecidableEq for Except

/-- Everything `readFile` produces on one call for the
opened-from-a-filename case: the final decoder state, whether
`file_pointer.close()` was reached, and the result or propagated
exception.  `close()` sits after calibration and before the trace
loop, with no `try`/`finally` around the decode. -/
structure ReadResult where
  state : EVTState
  closed : Bool
  result : Except EvtError Recording
deriving DecidableEq

/-- `EVT.readFile(filename, Raw=raw)` for a stream opened internally
from a filename: first tag, file header (with the order resolved from
that first tag), the frame/data loop, the block-count check,
calibration unless `Raw`, then `close()` and the trace loop. -/
def EVT.readFile (st : EVTState) (f : ByteFile) (raw : Bool) : ReadResult :=
  match EVT_TAG.read f 0 with
  | .error e => ⟨st, false, .error e⟩
  | .ok tag =>
    let endian := tag.endian
    let p1 := f.avail 0 16
    match EVT_HEADER.read f p1 tag.length endian with
    | .error e => ⟨st, false, .error e⟩
    | .ok hdr =>
      let acc0 : List (List ℤ) := List.replicate hdr.nchannels.toNat []
      let p2 := p1 + f.avail p1 tag.length
      match readLoop endian st acc0 f p2 with
      | (st', .error e) => ⟨st', false, .error e⟩
      | (st', .ok dataZ) =>
        match blocksCheck st'.numframe hdr.duration with
        | .error e => ⟨st', false, .error e⟩
        | .ok _ =>
          let dataQ0 : List (List ℚ) := dataZ.map (fun row => row.map (fun z => (z : ℚ)))
          match (if raw then .ok dataQ0 else EVT.calibration hdr dataQ0) with
          | .error e => ⟨st', false, .error e⟩
          | .ok dataQ =>
            match mkTraces hdr st'.samplingrate dataQ with
            | .error e => ⟨st', true, .error e⟩
            | .ok rec => ⟨st', true, .ok rec⟩

/-! ## The byte-order programs compared for claim C2

`EVT.readFileClaimOrder` follows the claim's words: the byte order
resolved from the first tag block is used for *every* subsequent
integer decode — later tag blocks and data samples included.
`EVT.readFileAmd` follows the amended claim: the first order is used
for the file-header and frame-header decodes, later tag blocks resolve
their own flag, and data samples are always big-endian. -/

/-- Follows the claim's words (C2): a later tag block is decoded with
the byte order `firstO` resolved from the first tag block (its own
byte-order flag is still validated, but not used for the fields). -/
def EVT_TAG.readClaimOrder (firstO : ByteOrder) (f : ByteFile) (pos : ℕ) :
    Except EvtError TagRec :=
  if f.size - pos < 16 then .error .eof
  else
    let sync := f.byteAt pos
    let byteOrder := f.byteAt (pos + 1)
    if sync = 0 then .error .eof
    else if sync ≠ 75 then .error (.badHeader "Sync error")
    else
      match (if byteOrder = 1 then some ByteOrder.big
             else if byteOrder = 0 then some ByteOrder.little
             else none) with
      | none => .error (.badHeader "")
      | some _flagOrder =>
        match unpackFmt firstO TAG_STRUCT f pos 16 with
        | none => .error .structError
        | some vals =>
          let t : TagRec :=
            { order := (vals.getD 1 (.int 0)).asN
              version := (vals.getD 2 (.int 0)).asN
              instrument := (vals.getD 3 (.int 0)).asN
              ttype := (vals.getD 4 (.int 0)).asN
              length := (vals.getD 5 (.int 0)).asN
              datalength := (vals.getD 6 (.int 0)).asN
              id := (vals.getD 7 (.int 0)).asN
              checksum := (vals.getD 8 (.int 0)).asN
              endian := firstO }
          if EVT_TAG.verify t then .ok t else .error (.badHeader "Bad Tag values")

/-- Follows the claim's words (C2): one packed sample interpreted with
the resolved byte order instead of the fixed big-endian one. -/
def decodeSampleClaimOrder (o : ByteOrder) (numbyte : ℕ) (bs : List ℕ) : Except EvtError ℤ :=
  let unpack32 := fun (b : List ℕ) =>
    if b.length = 4 then Except.ok (toSigned 4 (uintOf o b)) else Except.error EvtError.structError
  if numbyte = 2 then (unpack32 (bs ++ [0, 0])).map shr8
  else if numbyte = 3 then (unpack32 (bs ++ [0])).map shr8
  else if numbyte = 4 then unpack32 bs
  else .error .nameError

/-- Follows the claim's words (C2): `EVT_DATA.read` with every sample
decoded with the resolved byte order. -/
def EVT_DATA.readClaimOrder (f : ByteFile) (pos : ℕ) (length : ℕ) (endian : ByteOrder)
    (param : FrameRet) : Except EvtError (List (List ℤ)) :=
  let len := f.avail pos length
  let samplerate := param.samplingrate
  let numbyte := param.samplesize
  let numchan := param.numchan
  if lenEqNum length (pyNumF samplerate numbyte numchan) = false then
    .error (.badData "Bad data length")
  else
    (List.range numchan).mapM (fun k =>
      (List.range (samplerate / 10)).mapM (fun j =>
        let i := j * numchan + k
        decodeSampleClaimOrder endian numbyte
          (f.bytes (pos + min (i * numbyte) len) (min (i * numbyte + numbyte) len - min (i * numbyte) len))))

/-- Follows the claim's words (C2): one loop iteration with the first
tag's byte order used for the tag block and for the data samples. -/
def readStepClaim (o : ByteOrder) (f : ByteFile) (st : EVTState) (acc : List (List ℤ))
    (pos : ℕ) :
    (EVTState × Except EvtError (List (List ℤ))) ⊕ (EVTState × List (List ℤ) × ℕ) :=
  match EVT_TAG.readClaimOrder o f pos with
  | .error .eof => .inl (st, .ok acc)
  | .error e => .inl (st, .error e)
  | .ok tag =>
    match EVT_FRAME_HEADER.read f (pos + f.avail pos 16) tag.length o st.numframe with
    | (nf, .error e) => .inl (⟨st.samplingrate, nf⟩, .error e)
    | (nf, .ok ret) =>
      match rateStep st.samplingrate ret.samplingrate with
      | .error e => .inl (⟨st.samplingrate, nf⟩, .error e)
      | .ok sr =>
        match EVT_DATA.readClaimOrder f (loopPos2 f pos tag) tag.datalength o ret with
        | .error e => .inl (⟨sr, nf⟩, .error e)
        | .ok datal =>
          match hstackE acc datal with
          | .error e => .inl (⟨sr, nf⟩, .error e)
          | .ok acc' => .inr (⟨sr, nf⟩, acc', loopPos3 f pos tag)

/-- Follows the claim's words (C2): the whole decode with one byte
order, resolved from the first tag block, used for every subsequent
integer decode. -/
def EVT.readFileClaimOrder (st : EVTState) (f : ByteFile) (raw : Bool) : ReadResult :=
  match EVT_TAG.read f 0 with
  | .error e => ⟨st, false, .error e⟩
  | .ok tag =>
    let endian := tag.endian
    let p1 := f.avail 0 16
    match EVT_HEADER.read f p1 tag.length endian with
    | .error e => ⟨st, false, .error e⟩
    | .ok hdr =>
      let acc0 : List (List ℤ) := List.replicate hdr.nchannels.toNat []
      let p2 := p1 + f.avail p1 tag.length
      match runSteps (readStepClaim endian f) (f.size + 1) st acc0 p2 with
      | (st', .error e) => ⟨st', false, .error e⟩
      | (st', .ok dataZ) =>
        match blocksCheck st'.numframe hdr.duration with
        | .error e => ⟨st', false, .error e⟩
        | .ok _ =>
          let dataQ0 : List (List ℚ) := dataZ.map (fun row => row.map (fun z => (z : ℚ)))
          match (if raw then .ok dataQ0 else EVT.calibration hdr dataQ0) with
          | .error e => ⟨st', false, .error e⟩
          | .ok dataQ =>
            match mkTraces hdr st'.samplingrate dataQ with
            | .error e => ⟨st', true, .error e⟩
            | .ok rec => ⟨st', true, .ok rec⟩

/-- Follows the amended claim (C2): one loop iteration with the tag
block resolving its own byte order, the frame header decoded with the
order fixed at the start of the decode, and the data samples decoded
big-endian unconditionally. -/
def readStepAmd (o : ByteOrder) (f : ByteFile) (st : EVTState) (acc : List (List ℤ))
    (pos : ℕ) :
    (EVTState × Except EvtError (List (List ℤ))) ⊕ (EVTState × List (List ℤ) × ℕ) :=
  match EVT_TAG.read f pos with
  | .error .eof => .inl (st, .ok acc)
  | .error e => .inl (st, .error e)
  | .ok tag =>
    match EVT_FRAME_HEADER.read f (pos + f.avail pos 16) tag.length o st.numframe with
    | (nf, .error e) => .inl (⟨st.samplingrate, nf⟩, .error e)
    | (nf, .ok ret) =>
      match rateStep st.samplingrate ret.samplingrate with
      | .error e => .inl (⟨st.samplingrate, nf⟩, .error e)
      | .ok sr =>
        match EVT_DATA.read f (loopPos2 f pos tag) tag.datalength ByteOrder.big ret with
        | .error e => .inl (⟨sr, nf⟩, .error e)
        | .ok datal =>
          match hstackE acc datal with
          | .error e => .inl (⟨sr, nf⟩, .error e)
          | .ok acc' => .inr (⟨sr, nf⟩, acc', loopPos3 f pos tag)

/-- Follows the amended claim (C2): the whole decode with the byte
order of the first tag used for the file header and the frame headers
only. -/
def EVT.readFileAmd (st : EVTState) (f : ByteFile) (raw : Bool) : ReadResult :=
  match EVT_TAG.read f 0 with
  | .error e => ⟨st, false, .error e⟩
  | .ok tag =>
    let endian := tag.endian
    let p1 := f.avail 0 16
    match EVT_HEADER.read f p1 tag.length endian with
    | .error e => ⟨st, false, .error e⟩
    | .ok hdr =>
      let acc0 : List (List ℤ) := List.replicate hdr.nchannels.toNat []
      let p2 := p1 + f.avail p1 tag.length
      match runSteps (readStepAmd endian f) (f.size + 1) st acc0 p2 with
      | (st', .error e) => ⟨st', false, .error e⟩
      | (st', .ok dataZ) =>
        match blocksCheck st'.numframe hdr.duration with
        | .error e => ⟨st', false, .error e⟩
        | .ok _ =>
          let dataQ0 : List (List ℚ) := dataZ.map (fun row => row.map (fun z => (z : ℚ)))
          match (if raw then .ok dataQ0 else EVT.calibration hdr dataQ0) with
          | .error e => ⟨st', false, .error e⟩
          | .ok dataQ =>
            match mkTraces hdr st'.samplingrate dataQ with
            | .error e => ⟨st', true, .error e⟩
            | .ok rec => ⟨st', true, .ok rec⟩

/-! ## Concrete streams -/

/-- Big-endian bytes of a 16-bit value. -/
def be16 (n : ℕ) : List ℕ := [n / 256 % 256, n % 256]

/-- Big-endian bytes of a 32-bit value. -/
def be32 (n : ℕ) : List ℕ := [n / 2 ^ 24 % 256, n / 2 ^ 16 % 256, n / 256 % 256, n % 256]

/-- A big-endian tag block: sync `K`, order flag 1, the given type,
declared length and data length. -/
def mkTagBE (ttype len dlen : ℕ) : List ℕ :=
  [75, 1, 0, 0] ++ be32 ttype ++ be16 len ++ be16 dlen ++ [0, 0, 0, 0]

/-- A little-endian frame tag block (order flag 0, type 2, length 32,
data length 4, all stored least-significant byte first). -/
def tagFrameLE : List ℕ :=
  [75, 0, 0, 0] ++ [2, 0, 0, 0] ++ [32, 0] ++ [4, 0] ++ [0, 0, 0, 0]

/-- A 2040-byte big-endian 12-channel file-header buffer that declares
the given duration (offset 0x234) and channel count (offset 0x24E),
zero elsewhere. -/
def mkHeaderBuf (dur nch : ℕ) : List ℕ :=
  List.replicate 0x234 0 ++ be32 dur ++ List.replicate 22 0 ++ be16 nch ++
    List.replicate 1448 0

/-- A 32-byte big-endian frame header: frame type 3, the given channel
bitmap (bytes 10-11), stream parameters (bytes 12-13) and frame status
(byte 14). -/
def mkFrame (bitmap streampar framestatus : ℕ) : List ℕ :=
  [3, 0, 0, 0, 0, 0, 0, 0, 0, 0] ++ be16 bitmap ++ be16 streampar ++
    [framestatus, 0] ++ [0, 0] ++ [0] ++ List.replicate 13 0

theorem mkHeaderBuf_length (dur nch : ℕ) : (mkHeaderBuf dur nch).length = 2040 := by
  simp [mkHeaderBuf, be32, be16]

theorem mkFrame_length (b s fr : ℕ) : (mkFrame b s fr).length = 32 := by
  simp [mkFrame, be16]

/-- One channel, duration 2: a rate-0 frame (no data) followed by a
rate-10 frame with one 4-byte sample. -/
def csRate0 : List ℕ :=
  mkTagBE 1 2040 0 ++ mkHeaderBuf 2 1 ++
    mkTagBE 2 32 0 ++ mkFrame 1 0 192 ++
    mkTagBE 2 32 4 ++ mkFrame 1 10 192 ++ [0, 0, 0, 0]

/-- One channel, duration 1, one rate-10 frame with one 4-byte
sample. -/
def csOne : List ℕ :=
  mkTagBE 1 2040 0 ++ mkHeaderBuf 1 1 ++
    mkTagBE 2 32 4 ++ mkFrame 1 10 192 ++ [0, 0, 0, 0]

/-- Like `csOne`, but the frame's tag block is stored little-endian
(its byte-order flag is 0 and its fields are least-significant byte
first) while the first tag block declares big-endian. -/
def csMixedOrder : List ℕ :=
  mkTagBE 1 2040 0 ++ mkHeaderBuf 1 1 ++
    tagFrameLE ++ mkFrame 1 10 192 ++ [255, 255, 255, 255]

/-- A header declaring duration 1 followed by no frames at all. -/
def csNoFrames : List ℕ := mkTagBE 1 2040 0 ++ mkHeaderBuf 1 1

/-- One channel, duration 2: a rate-10 frame then a rate-20 frame. -/
def csRateJump : List ℕ :=
  mkTagBE 1 2040 0 ++ mkHeaderBuf 2 1 ++
    mkTagBE 2 32 4 ++ mkFrame 1 10 192 ++ [0, 0, 0, 0] ++
    mkTagBE 2 32 8 ++ mkFrame 1 20 192

/-- `csRate0` as an opened file (its size is certified by
`csRate0F_size`). -/
def csRate0F : ByteFile := ⟨2156, fun i => csRate0.getD i 0⟩

/-- `csOne` as an opened file. -/
def csOneF : ByteFile := ⟨2108, fun i => csOne.getD i 0⟩

/-- `csMixedOrder` as an opened file. -/
def csMixedOrderF : ByteFile := ⟨2108, fun i => csMixedOrder.getD i 0⟩

/-- `csNoFrames` as an opened file. -/
def csNoFramesF : ByteFile := ⟨2056, fun i => csNoFrames.getD i 0⟩

/-- `csRateJump` as an opened file. -/
def csRateJumpF : ByteFile := ⟨2156, fun i => csRateJump.getD i 0⟩

theorem csRate0F_size : csRate0F.size = csRate0.length := by
  simp [csRate0F, csRate0, mkTagBE, mkHeaderBuf, mkFrame, be16, be32]

theorem csOneF_size : csOneF.size = csOne.length := by
  simp [csOneF, csOne, mkTagBE, mkHeaderBuf, mkFrame, be16, be32]

theorem csMixedOrderF_size : csMixedOrderF.size = csMixedOrder.length := by
  simp [csMixedOrderF, csMixedOrder, mkTagBE, mkHeaderBuf, mkFrame, tagFrameLE, be16, be32]

theorem csNoFramesF_size : csNoFramesF.size = csNoFrames.length := by
  simp [csNoFramesF, csNoFrames, mkTagBE, mkHeaderBuf, be16, be32]

theorem csRateJumpF_size : csRateJumpF.size = csRateJump.length := by
  simp [csRateJumpF, csRateJump, mkTagBE, mkHeaderBuf, mkFrame, be16, be32]

/-! ## Supporting lemmas -/

theorem EVT_TAG.read_ok_le {f : ByteFile} {pos : ℕ} {t : TagRec}
    (h : EVT_TAG.read f pos = .ok t) : 16 ≤ f.size - pos := by
  unfold EVT_TAG.read at h
  by_cases hl : f.size - pos < 16
  · rw [if_pos hl] at h
    exact absurd h (by simp)
  · omega

/-- An `inr` outcome of `readStep` only happens with a full tag block
still available, and it moves the file position forward by at least
those 16 bytes. -/
theorem readStep_inr_le {o : ByteOrder} {f : ByteFile} {st : EVTState}
    {acc : List (List ℤ)} {pos : ℕ} {st' : EVTState} {acc' : List (List ℤ)} {pos' : ℕ}
    (h : readStep o f st acc pos = .inr (st', acc', pos')) :
    pos + 16 ≤ pos' ∧ 16 ≤ f.size - pos := by
  unfold readStep at h
  split at h
  · exact absurd h (by simp)
  · exact absurd h (by simp)
  · rename_i tag htag
    have h16 := EVT_TAG.read_ok_le htag
    split at h
    · exact absurd h (by simp)
    · split at h
      · exact absurd h (by simp)
      · split at h
        · exact absurd h (by simp)
        · split at h
          · exact absurd h (by simp)
          · simp only [Sum.inr.injEq, Prod.mk.injEq] at h
            refine ⟨?_, h16⟩
            have hp := h.2.2
            simp only [loopPos3, loopPos2, ByteFile.avail] at hp
            omega

/-- The fuel given to `runSteps` is irrelevant as soon as it exceeds
the bytes left in the file, for any loop body that consumes at least
16 bytes per iteration.  In particular the fuel `f.size + 1` supplied
by `readLoop` never runs out. -/
theorem runSteps_fuel_irrel
    (step : EVTState → List (List ℤ) → ℕ →
      (EVTState × Except EvtError (List (List ℤ))) ⊕ (EVTState × List (List ℤ) × ℕ))
    (N : ℕ)
    (hstep : ∀ st acc pos st' acc' pos', step st acc pos = .inr (st', acc', pos') →
      pos + 16 ≤ pos' ∧ 16 ≤ N - pos) :
    ∀ fuel fuel' st acc pos, N - pos < fuel → N - pos < fuel' →
      runSteps step fuel st acc pos = runSteps step fuel' st acc pos := by
  intro fuel
  induction fuel with
  | zero => intro fuel' st acc pos h h'; omega
  | succ n ih =>
    intro fuel' st acc pos h h'
    match fuel', h' with
    | m + 1, h' =>
    simp only [runSteps]
    cases hs : step st acc pos with
    | inl r => rfl
    | inr c =>
      obtain ⟨st', acc', pos'⟩ := c
      have hb := hstep st acc pos st' acc' pos' hs
      exact ih m st' acc' pos' (by omega) (by omega)

/-- `readLoop` computes the limit of the loop: its fuel choice is
invisible. -/
theorem readLoop_fuel_irrel (o : ByteOrder) (f : ByteFile) (st : EVTState)
    (acc : List (List ℤ)) (pos : ℕ) (fuel : ℕ) (h : f.size - pos < fuel) :
    readLoop o st acc f pos = runSteps (readStep o f) fuel st acc pos :=
  runSteps_fuel_irrel (readStep o f) f.size
    (fun _ _ _ _ _ _ hs => readStep_inr_le hs) (f.size + 1) fuel st acc pos
    (by omega) h

/-- A success value for `List.mapM` in the `Except` monad, one element
at a time. -/
theorem mapM_ok_of {α β : Type} (fn : α → Except EvtError β) (g : α → β) :
    ∀ l : List α, (∀ a ∈ l, fn a = .ok (g a)) → l.mapM fn = .ok (l.map g) := by
  intro l
  induction l with
  | nil => intro _; rfl
  | cons a t ih =>
    intro h
    have ha := h a (by simp)
    have ht := ih (fun x hx => h x (by simp [hx]))
    simp only [List.mapM_cons, ha, ht, List.map_cons]
    rfl

/-! ## Correctness of the float model

The lemmas below relate the integer implementation of the binary64
rounding (`rhedDiv`, `toF53`, `mulF53`, `pyNumF`) to the exact
rational values, culminating in `pyNum_decides`: on any geometry with
`rate·width·channels ≤ 2^40` — far above everything
`EVT_FRAME_HEADER.read` can produce — the float `num` compares equal
to an integer length only if the exact equality
`10·length = rate·width·channels` holds. -/

/-- The fuel in `log2F` is irrelevant once it is at least `n`, and the
result is the floor binary logarithm. -/
theorem log2F_spec :
    ∀ (fuel n : ℕ), n ≤ fuel → 1 ≤ n →
      2 ^ log2F fuel n ≤ n ∧ n < 2 ^ (log2F fuel n + 1) := by
  intro fuel
  induction fuel with
  | zero => intro n hn h1; exact absurd (h1.trans hn) (by decide)
  | succ m ih =>
    intro n hn h1
    simp only [log2F]
    split
    · rename_i hle
      constructor
      · simpa using h1
      · exact lt_of_le_of_lt hle (by norm_num)
    · rename_i hgt
      obtain ⟨hl, hu⟩ := ih (n / 2) (by omega) (by omega)
      constructor
      · rw [pow_succ]
        exact le_trans (mul_le_mul_right' hl 2) (Nat.div_mul_le_self n 2)
      · rw [pow_succ]
        have h3 : n / 2 + 1 ≤ 2 ^ (log2F m (n / 2) + 1) := hu
        calc n < n / 2 * 2 + 2 := by omega
          _ = (n / 2 + 1) * 2 := by ring
          _ ≤ 2 ^ (log2F m (n / 2) + 1) * 2 := mul_le_mul_right' h3 2

/-- `nlog2` is the floor binary logarithm. -/
theorem nlog2_spec (n : ℕ) (hn : 0 < n) :
    2 ^ nlog2 n ≤ n ∧ n < 2 ^ (nlog2 n + 1) :=
  log2F_spec n n le_rfl hn

/-- Round-to-nearest division lands within half a unit of the exact
quotient. -/
theorem rhedDiv_err (a b : ℕ) (hb : 0 < b) :
    |(rhedDiv a b : ℚ) - (a : ℚ) / b| ≤ 1 / 2 := by
  have hbQ : (0 : ℚ) < b := by exact_mod_cast hb
  have hmlt : a % b < b := Nat.mod_lt a hb
  have haQ : (a : ℚ) = (b : ℚ) * ((a / b : ℕ) : ℚ) + ((a % b : ℕ) : ℚ) := by
    exact_mod_cast (Nat.div_add_mod a b).symm
  have hrQb : ((a % b : ℕ) : ℚ) < b := by exact_mod_cast hmlt
  have hq : ((a / b : ℕ) : ℚ) - (a : ℚ) / b = -(((a % b : ℕ) : ℚ) / b) := by
    rw [haQ]
    field_simp
    ring
  have hq1 : ((a / b + 1 : ℕ) : ℚ) - (a : ℚ) / b
      = ((b : ℚ) - ((a % b : ℕ) : ℚ)) / b := by
    push_cast
    rw [haQ]
    field_simp
    ring
  unfold rhedDiv
  split
  · rename_i h1
    have h1Q : 2 * ((a % b : ℕ) : ℚ) < b := by exact_mod_cast h1
    rw [hq, abs_neg, abs_of_nonneg (by positivity)]
    rw [div_le_div_iff hbQ (by norm_num : (0:ℚ) < 2)]
    linarith
  · rename_i h1
    split
    · rename_i h2
      have h2Q : (b : ℚ) < 2 * ((a % b : ℕ) : ℚ) := by exact_mod_cast h2
      rw [hq1, abs_of_nonneg (div_nonneg (by linarith) hbQ.le)]
      rw [div_le_div_iff hbQ (by norm_num : (0:ℚ) < 2)]
      linarith
    · rename_i h2
      have hte : 2 * (a % b) = b := by omega
      have hteQ : 2 * ((a % b : ℕ) : ℚ) = b := by exact_mod_cast hte
      split
      · rw [hq, abs_neg, abs_of_nonneg (by positivity)]
        rw [div_le_div_iff hbQ (by norm_num : (0:ℚ) < 2)]
        linarith
      · rw [hq1, abs_of_nonneg (div_nonneg (by linarith) hbQ.le)]
        rw [div_le_div_iff hbQ (by norm_num : (0:ℚ) < 2)]
        linarith

/-- `qlog2` is the floor binary logarithm of the fraction. -/
theorem qlog2_spec (n d : ℕ) (hn : 0 < n) (hd : 0 < d) :
    (2 : ℚ) ^ qlog2 n d ≤ (n : ℚ) / d ∧ (n : ℚ) / d < 2 ^ (qlog2 n d + 1) := by
  obtain ⟨hn1, hn2⟩ := nlog2_spec n hn
  obtain ⟨hd1, hd2⟩ := nlog2_spec d hd
  have hdQ : (0 : ℚ) < d := by exact_mod_cast hd
  unfold qlog2
  split
  · rename_i hc
    constructor
    · rw [zpow_sub₀ (by norm_num : (2:ℚ) ≠ 0), zpow_natCast, zpow_natCast]
      rw [div_le_div_iff (by positivity) hdQ]
      exact_mod_cast le_of_le_of_eq hc (Nat.mul_comm _ _)
    · have hcast : ((nlog2 n : ℤ) - nlog2 d + 1)
          = ((nlog2 n + 1 : ℕ) : ℤ) - ((nlog2 d : ℕ) : ℤ) := by push_cast; ring
      rw [hcast, zpow_sub₀ (by norm_num : (2:ℚ) ≠ 0), zpow_natCast, zpow_natCast]
      rw [div_lt_div_iff hdQ (by positivity)]
      have hx : n * 2 ^ nlog2 d < 2 ^ (nlog2 n + 1) * d :=
        lt_of_lt_of_le
          (mul_lt_mul_of_pos_right hn2 (pow_pos (by norm_num) _))
          (mul_le_mul_of_nonneg_left hd1 (Nat.zero_le _))
      exact_mod_cast hx
  · rename_i hc
    have hc' : 2 ^ nlog2 d * n < 2 ^ nlog2 n * d := not_le.mp hc
    constructor
    · have hcast : ((nlog2 n : ℤ) - nlog2 d - 1)
          = ((nlog2 n : ℕ) : ℤ) - ((nlog2 d + 1 : ℕ) : ℤ) := by push_cast; ring
      rw [hcast, zpow_sub₀ (by norm_num : (2:ℚ) ≠ 0), zpow_natCast, zpow_natCast]
      rw [div_le_div_iff (by positivity) hdQ]
      have hx : 2 ^ nlog2 n * d ≤ n * 2 ^ (nlog2 d + 1) :=
        Nat.mul_le_mul hn1 (le_of_lt hd2)
      exact_mod_cast hx
    · have hcast : ((nlog2 n : ℤ) - nlog2 d - 1 + 1)
          = ((nlog2 n : ℕ) : ℤ) - ((nlog2 d : ℕ) : ℤ) := by ring
      rw [hcast, zpow_sub₀ (by norm_num : (2:ℚ) ≠ 0), zpow_natCast, zpow_natCast]
      rw [div_lt_div_iff hdQ (by positivity)]
      have hx : n * 2 ^ nlog2 d < 2 ^ nlog2 n * d := by
        calc n * 2 ^ nlog2 d = 2 ^ nlog2 d * n := Nat.mul_comm _ _
          _ < 2 ^ nlog2 n * d := hc'
      exact_mod_cast hx

/-- Dyadic values are nonnegative. -/
theorem valD_nonneg (x : ℕ × ℤ) : 0 ≤ valD x := by
  unfold valD
  positivity

/-- A mantissa within half a unit of `q · 2^(52-e)` gives, after
scaling back, a value within relative error `2^-53` of `q` (using
`2^e ≤ q`). -/
theorem roundAt_err (q : ℚ) (e : ℤ) (m : ℕ)
    (hq : (2:ℚ) ^ e ≤ q)
    (hm : |(m : ℚ) - q * 2 ^ ((52:ℤ) - e)| ≤ 1 / 2) :
    |(m : ℚ) / 2 ^ ((52:ℤ) - e) - q| ≤ q / 2 ^ 53 := by
  have hs : (0:ℚ) < 2 ^ ((52:ℤ) - e) := by positivity
  have h53 : (0:ℚ) < (2:ℚ) ^ (53:ℕ) := by positivity
  have hxs : (m : ℚ) / 2 ^ ((52:ℤ) - e) - q
      = ((m : ℚ) - q * 2 ^ ((52:ℤ) - e)) / 2 ^ ((52:ℤ) - e) := by
    field_simp
    ring
  rw [hxs, abs_div, abs_of_pos hs, div_le_div_iff hs h53]
  have h3 : (2:ℚ) ^ e * 2 ^ ((52:ℤ) - e) = 2 ^ (52:ℕ) := by
    rw [← zpow_add₀ (by norm_num : (2:ℚ) ≠ 0)]
    rw [show e + ((52:ℤ) - e) = ((52:ℕ) : ℤ) by push_cast; ring]
    rw [zpow_natCast]
  calc |(m : ℚ) - q * 2 ^ ((52:ℤ) - e)| * 2 ^ (53:ℕ)
      ≤ (1 / 2) * 2 ^ (53:ℕ) := mul_le_mul_of_nonneg_right hm h53.le
    _ = 2 ^ (52:ℕ) := by norm_num
    _ = 2 ^ e * 2 ^ ((52:ℤ) - e) := h3.symm
    _ ≤ q * 2 ^ ((52:ℤ) - e) := mul_le_mul_of_nonneg_right hq hs.le

/-- `toF53` is within relative error `2^-53` of the exact fraction:
correct rounding of one IEEE-754 binary64 operation. -/
theorem toF53_err (n d : ℕ) (hd : 0 < d) :
    |valD (toF53 n d) - (n : ℚ) / d| ≤ (n : ℚ) / d / 2 ^ 53 := by
  rcases Nat.eq_zero_or_pos n with h0 | hn
  · subst h0
    simp [toF53, valD]
  · obtain ⟨hql, hqu⟩ := qlog2_spec n d hn hd
    unfold toF53
    rw [if_neg hn.ne']
    split
    · rename_i hle
      have hkZ : ((((52:ℤ) - qlog2 n d).toNat : ℕ) : ℤ) = 52 - qlog2 n d :=
        Int.toNat_of_nonneg (by omega)
      have hkey := rhedDiv_err (n * 2 ^ ((52:ℤ) - qlog2 n d).toNat) d hd
      have hconv : ((n * 2 ^ ((52:ℤ) - qlog2 n d).toNat : ℕ) : ℚ) / d
          = (n : ℚ) / d * 2 ^ ((52:ℤ) - qlog2 n d) := by
        push_cast
        rw [← zpow_natCast (2:ℚ) ((52:ℤ) - qlog2 n d).toNat, hkZ]
        ring
      rw [hconv] at hkey
      have hres := roundAt_err ((n:ℚ)/d) (qlog2 n d) _ hql hkey
      simpa [valD] using hres
    · rename_i hgt
      have hjZ : (((qlog2 n d - 52).toNat : ℕ) : ℤ) = qlog2 n d - 52 :=
        Int.toNat_of_nonneg (by omega)
      have hd2 : 0 < d * 2 ^ (qlog2 n d - 52).toNat := by positivity
      have hkey := rhedDiv_err n (d * 2 ^ (qlog2 n d - 52).toNat) hd2
      have hz2 : (0:ℚ) < (2:ℚ) ^ (qlog2 n d - 52) := by positivity
      have hconv : (n : ℚ) / ((d * 2 ^ (qlog2 n d - 52).toNat : ℕ) : ℚ)
          = (n : ℚ) / d * 2 ^ ((52:ℤ) - qlog2 n d) := by
        push_cast
        rw [← zpow_natCast (2:ℚ) (qlog2 n d - 52).toNat, hjZ]
        rw [show ((52:ℤ) - qlog2 n d) = -(qlog2 n d - 52) by ring, zpow_neg]
        field_simp
      rw [hconv] at hkey
      have hres := roundAt_err ((n:ℚ)/d) (qlog2 n d) _ hql hkey
      simpa [valD] using hres

/-- Multiplying a float by a small int and rounding stays within
relative error `2^-53` of the exact product. -/
theorem mulF53_err (x : ℕ × ℤ) (k : ℕ) :
    |valD (mulF53 x k) - valD x * k| ≤ valD x * k / 2 ^ 53 := by
  unfold mulF53
  split
  · rename_i hx
    have hd : 0 < 2 ^ x.2.toNat := pow_pos (by norm_num) _
    have h := toF53_err (x.1 * k) (2 ^ x.2.toNat) hd
    have heq : ((x.1 * k : ℕ) : ℚ) / ((2 ^ x.2.toNat : ℕ) : ℚ) = valD x * k := by
      unfold valD
      push_cast
      rw [← zpow_natCast (2:ℚ) x.2.toNat, Int.toNat_of_nonneg hx]
      ring
    rw [heq] at h
    exact h
  · rename_i hx
    have h := toF53_err (x.1 * k * 2 ^ (-x.2).toNat) 1 Nat.one_pos
    have heq : ((x.1 * k * 2 ^ (-x.2).toNat : ℕ) : ℚ) / ((1 : ℕ) : ℚ) = valD x * k := by
      unfold valD
      push_cast
      rw [← zpow_natCast (2:ℚ) (-x.2).toNat, Int.toNat_of_nonneg (by omega)]
      rw [zpow_neg, div_one, div_eq_mul_inv]
      ring
    rw [heq] at h
    exact h

/-- The three-rounding chain `pyNumF` is within relative error `2^-50`
of the exact `rate·nb·nc/10`. -/
theorem pyNum_err (rate nb nc : ℕ) :
    |valD (pyNumF rate nb nc) - (rate : ℚ) * nb * nc / 10|
      ≤ (rate : ℚ) * nb * nc / 10 / 2 ^ 50 := by
  simp only [pyNumF]
  have h1 := toF53_err rate 10 (by norm_num)
  have h2 := mulF53_err (toF53 rate 10) nb
  have h3 := mulF53_err (mulF53 (toF53 rate 10) nb) nc
  push_cast at h1
  have hnb : (0:ℚ) ≤ (nb : ℚ) := Nat.cast_nonneg nb
  have hnc : (0:ℚ) ≤ (nc : ℚ) := Nat.cast_nonneg nc
  obtain ⟨a1, b1⟩ := abs_le.mp h1
  obtain ⟨a2, b2⟩ := abs_le.mp h2
  obtain ⟨a3, b3⟩ := abs_le.mp h3
  set q0 : ℚ := (rate : ℚ) / 10 with hq0eq
  set v1 : ℚ := valD (toF53 rate 10) with hv1eq
  set v2 : ℚ := valD (mulF53 (toF53 rate 10) nb) with hv2eq
  set v3 : ℚ := valD (mulF53 (mulF53 (toF53 rate 10) nb) nc) with hv3eq
  have hb1nb := mul_le_mul_of_nonneg_right b1 hnb
  have ha1nb := mul_le_mul_of_nonneg_right a1 hnb
  have hv2ub : v2 ≤ q0 * nb * (1 + 1/2^53)^2 := by nlinarith [b2, hb1nb]
  have hv2lb : q0 * nb * (1 - 1/2^53)^2 ≤ v2 := by nlinarith [a2, ha1nb]
  have hv2ubnc := mul_le_mul_of_nonneg_right hv2ub hnc
  have hv2lbnc := mul_le_mul_of_nonneg_right hv2lb hnc
  have hfinub : v3 ≤ q0 * nb * nc * (1 + 1/2^53)^3 := by nlinarith [b3, hv2ubnc]
  have hfinlb : q0 * nb * nc * (1 - 1/2^53)^3 ≤ v3 := by nlinarith [a3, hv2lbnc]
  have hcu : ((1 : ℚ) + 1/2^53)^3 ≤ 1 + 1/2^50 := by norm_num
  have hcl : (1 : ℚ) - 1/2^50 ≤ (1 - 1/2^53)^3 := by norm_num
  have hqnn : (0:ℚ) ≤ q0 * nb * nc := by
    rw [hq0eq]
    positivity
  have hgoal : (rate : ℚ) * nb * nc / 10 = q0 * nb * nc := by
    rw [hq0eq]
    ring
  rw [hgoal, abs_le]
  constructor
  · linarith [hfinlb, mul_le_mul_of_nonneg_left hcl hqnn]
  · linarith [hfinub, mul_le_mul_of_nonneg_left hcu hqnn]

/-- `2^z` over ℚ as a quotient of the two one-sided natural powers. -/
theorem zpow_toNat_div (z : ℤ) : (2:ℚ) ^ z = 2 ^ z.toNat / 2 ^ (-z).toNat := by
  rcases le_or_lt 0 z with h | h
  · have h0 : (-z).toNat = 0 := by omega
    rw [h0, pow_zero, div_one, ← zpow_natCast (2:ℚ) z.toNat, Int.toNat_of_nonneg h]
  · have h0 : z.toNat = 0 := by omega
    rw [h0, pow_zero, ← zpow_natCast (2:ℚ) (-z).toNat,
      Int.toNat_of_nonneg (by omega), one_div, ← zpow_neg, neg_neg]

/-- `lenEqNum` decides exactly the rational equation
`length = valD x`, i.e. Python int-to-float equality. -/
theorem lenEqNum_iff (length : ℕ) (x : ℕ × ℤ) :
    lenEqNum length x = true ↔ (length : ℚ) = valD x := by
  have hpos : (0:ℚ) < (2:ℚ) ^ x.2.toNat := by positivity
  simp only [lenEqNum, valD, decide_eq_true_eq]
  rw [zpow_toNat_div, div_div_eq_mul_div, eq_div_iff hpos.ne']
  constructor
  · intro h
    exact_mod_cast h
  · intro h
    exact_mod_cast h

/-- On geometry up to `2^40` (the program stays below `4095·4·12`),
the float check can only pass when the exact equality holds: the
three roundings move `num` by less than `2^-10/10`, far less than the
distance from a wrong multiple of `1/10` to an integer. -/
theorem pyNum_decides (rate nb nc length : ℕ)
    (hbound : rate * nb * nc ≤ 2 ^ 40)
    (h : lenEqNum length (pyNumF rate nb nc) = true) :
    10 * length = rate * nb * nc := by
  have hval : (length : ℚ) = valD (pyNumF rate nb nc) := (lenEqNum_iff _ _).mp h
  have herr := pyNum_err rate nb nc
  rw [← hval] at herr
  have hb : (rate : ℚ) * nb * nc ≤ 2 ^ 40 := by exact_mod_cast hbound
  have hprodnn : (0:ℚ) ≤ (rate : ℚ) * nb * nc := by positivity
  have key : |10 * (length : ℚ) - (rate : ℚ) * nb * nc| < 1 := by
    have h1 : |10 * (length : ℚ) - (rate : ℚ) * nb * nc|
        = 10 * |(length : ℚ) - (rate : ℚ) * nb * nc / 10| := by
      rw [show 10 * (length : ℚ) - (rate : ℚ) * nb * nc
            = 10 * ((length : ℚ) - (rate : ℚ) * nb * nc / 10) by ring,
        abs_mul, abs_of_pos (show (0:ℚ) < 10 by norm_num)]
    rw [h1]
    calc 10 * |(length : ℚ) - (rate : ℚ) * nb * nc / 10|
        ≤ 10 * ((rate : ℚ) * nb * nc / 10 / 2 ^ 50) := by linarith [herr]
      _ = (rate : ℚ) * nb * nc / 2 ^ 50 := by ring
      _ ≤ (2 : ℚ) ^ 40 / 2 ^ 50 := by gcongr
      _ < 1 := by norm_num
  by_contra hne
  have hcases : 10 * length + 1 ≤ rate * nb * nc ∨ rate * nb * nc + 1 ≤ 10 * length := by
    omega
  obtain ⟨hk1, hk2⟩ := abs_lt.mp key
  rcases hcases with hc | hc
  · have hcQ : 10 * (length : ℚ) + 1 ≤ (rate : ℚ) * nb * nc := by exact_mod_cast hc
    linarith
  · have hcQ : (rate : ℚ) * nb * nc + 1 ≤ 10 * (length : ℚ) := by exact_mod_cast hc
    linarith

/-! ## Claim C1 -/

/-- C1, counterexample: a width-2 sample whose raw bytes are all
1-bits decodes to -256, not -1: the two zero-padding bytes put the
sample in the top half of the 32-bit word, and the 8-bit arithmetic
shift only removes one of them.  (`⟨2, fun _ => 255⟩` is a 2-byte file
of 0xFF bytes; geometry: rate 10, width 2, 1 channel.) -/
theorem c1_counterexample :
    EVT_DATA.read ⟨2, fun _ => 255⟩ 0 2 .big ⟨10, 2, ⟨0, 0⟩, 1⟩ = .ok [[-256]] ∧
    ((-256 : ℤ) ≠ -1) := by
  constructor
  · decide
  · decide

/-- C1, amended: an all-1-bits sample decodes to -1 for widths 3 and
4; for width 2 it decodes to -256 (the fixed 8-bit shift fully
sign-extends only the 3-byte width; a width-2 sample keeps a factor of
256). -/
theorem c1_amended :
    (decodeSample 2 [255, 255] = .ok (-256) ∧
     decodeSample 3 [255, 255, 255] = .ok (-1) ∧
     decodeSample 4 [255, 255, 255, 255] = .ok (-1)) ∧
    EVT_DATA.read ⟨2, fun _ => 255⟩ 0 2 .big ⟨10, 2, ⟨0, 0⟩, 1⟩ = .ok [[-256]] ∧
    EVT_DATA.read ⟨3, fun _ => 255⟩ 0 3 .big ⟨10, 3, ⟨0, 0⟩, 1⟩ = .ok [[-1]] ∧
    EVT_DATA.read ⟨4, fun _ => 255⟩ 0 4 .big ⟨10, 4, ⟨0, 0⟩, 1⟩ = .ok [[-1]] := by
  refine ⟨⟨by decide, by decide, by decide⟩, by decide, by decide, by decide⟩

/-! ## Claim C3 -/

/-- C3: `EVT_HEADER.read` with a declared length that is neither 2040
nor 2736 does fail, but with `TypeError` — `"Bad Header length " +
length` concatenates a string with an int, so the intended
`EVTBadHeaderError` is never constructed; length 2736 raises the
`NotImplementedError` and length 2040 with a full 12-channel buffer
succeeds. -/
theorem c3_header_eval :
    EVT_HEADER.read ⟨0, fun _ => 0⟩ 0 100 .big = .error .typeError ∧
    EVT_HEADER.read ⟨2736, fun _ => 0⟩ 0 2736 .big =
      .error (.notImplemented "16 Channel not implemented") ∧
    isOkE (EVT_HEADER.read ⟨2040, fun _ => 0⟩ 0 2040 .big) = true := by
  refine ⟨by decide, by decide, by decide⟩

/-! ## Claim C4 -/

/-- C4: on the error exit taken when the frame count mismatches the
declared duration, `readFile` never reaches `file_pointer.close()`
(the close call sits on the success path only, with no
`try`/`finally`), while a successful decode does close the internally
opened file. -/
theorem c4_close_eval :
    ((EVT.readFile EVT.init csNoFramesF true).result =
        .error (.badData "Bad number of blocks") ∧
      (EVT.readFile EVT.init csNoFramesF true).closed = false) ∧
    (isOkE (EVT.readFile EVT.init csOneF true).result = true ∧
      (EVT.readFile EVT.init csOneF true).closed = true) := by
  refine ⟨⟨by decide, by decide⟩, by decide, by decide⟩

/-! ## Claim C6 -/

/-- C6: whenever the declared data length differs from
`(samplingRate / 10) × sampleByteWidth × activeChannelCount` (stated
exactly as `10·length ≠ rate·width·channels`), `EVT_DATA.read` fails
with `BadData "Bad data length"` — for every file content and byte
order, so the check precedes any sample unpacking.  The code decides
the comparison on the binary64 float `num`; the hypothesis
`rate·width·channels ≤ 2^40` delimits the geometry on which the float
can only compare equal to an integer length when the exact equality
holds (`pyNum_decides`), and every data block the program reads is
far inside it: `EVT_FRAME_HEADER.read` masks the rate to 12 bits
(`≤ 4095`), the width is 2, 3 or 4 and at most 12 channels are
active, so `rate·width·channels ≤ 196560`.  (On astronomically larger
unreachable parameters the float `num` genuinely rounds onto integers
and the source accepts mismatched lengths.) -/
theorem c6_bad_length :
    ∀ (f : ByteFile) (pos length : ℕ) (o : ByteOrder) (p : FrameRet),
      p.samplingrate * p.samplesize * p.numchan ≤ 2 ^ 40 →
      10 * length ≠ p.samplingrate * p.samplesize * p.numchan →
      EVT_DATA.read f pos length o p = .error (.badData "Bad data length") := by
  intro f pos length o p hbound h
  have hfalse : lenEqNum length (pyNumF p.samplingrate p.samplesize p.numchan) = false := by
    cases hln : lenEqNum length (pyNumF p.samplingrate p.samplesize p.numchan) with
    | false => rfl
    | true => exact absurd (pyNum_decides _ _ _ _ hbound hln) h
  simp only [EVT_DATA.read, hfalse]
  rfl

/-- Witness for C6 at the spec's example geometry: 2 channels, rate
100, width 4, declared length 5. -/
theorem c6_bad_length_witness :
    EVT_DATA.read ⟨0, fun _ => 0⟩ 0 5 .big ⟨100, 4, ⟨0, 0⟩, 2⟩ =
      .error (.badData "Bad data length") :=
  c6_bad_length ⟨0, fun _ => 0⟩ 0 5 .big ⟨100, 4, ⟨0, 0⟩, 2⟩ (by decide) (by decide)

/-! ## Claim C7 -/

/-- C7, counterexample: in `csRate0F` the first frame derives sampling
rate 0 and the second derives 10 — different from the first frame's
rate — yet the whole decode succeeds, because the accumulated rate 0
doubles as the "no rate seen yet" sentinel. -/
theorem c7_counterexample :
    (EVT_FRAME_HEADER.read csRate0F 2072 32 .big 0).2 = .ok ⟨0, 4, ⟨0, 0⟩, 1⟩ ∧
    (EVT_FRAME_HEADER.read csRate0F 2120 32 .big 1).2 = .ok ⟨10, 4, ⟨0, 0⟩, 1⟩ ∧
    (10 : ℕ) ≠ 0 ∧
    isOkE (EVT.readFile EVT.init csRate0F true).result = true := by
  refine ⟨by decide, by decide, by decide, by decide⟩

/-- C7, amended: a frame whose rate differs from the nonzero
accumulated rate (the first nonzero rate seen so far) aborts the
decode with "Sampling rate not constant", while a zero accumulated
rate adopts the frame's rate; and at end of stream a frame count that
differs from the declared duration aborts with "Bad number of blocks".
The two concrete decodes show both errors end to end. -/
theorem c7_amended :
    (∀ cur r : ℕ, cur ≠ 0 → r ≠ cur →
      rateStep cur r = .error (.badHeader "Sampling rate not constant")) ∧
    (∀ r : ℕ, rateStep 0 r = .ok r) ∧
    (∀ (n : ℕ) (d : ℤ), (n : ℤ) ≠ d →
      blocksCheck n d = .error (.badData "Bad number of blocks")) ∧
    (EVT.readFile EVT.init csRateJumpF true).result =
      .error (.badHeader "Sampling rate not constant") ∧
    (EVT.readFile EVT.init csNoFramesF true).result =
      .error (.badData "Bad number of blocks") := by
  refine ⟨?_, ?_, ?_, by decide, by decide⟩
  · intro cur r hc hr
    unfold rateStep
    rw [if_neg hc, if_pos (Ne.symm hr)]
  · intro r
    simp [rateStep]
  · intro n d h
    simp [blocksCheck, h]

/-- Witness for the quantified parts of the amended C7. -/
theorem c7_amended_witness :
    rateStep 5 7 = .error (.badHeader "Sampling rate not constant") ∧
    rateStep 0 9 = .ok 9 ∧
    blocksCheck 1 2 = .error (.badData "Bad number of blocks") :=
  ⟨c7_amended.1 5 7 (by decide) (by decide), c7_amended.2.1 9,
   c7_amended.2.2.1 1 2 (by decide)⟩

/-! ## Claim C9 -/

/-- C9, counterexample: decoding `csOneF` from a fresh decoder
succeeds, but running the same decode again on the same bytes with the
decoder state the first run left behind fails with "Bad number of
blocks": the frame counter `numframe` persists across runs and counts
2 frames against the declared duration 1. -/
theorem c9_counterexample :
    isOkE (EVT.readFile EVT.init csOneF true).result = true ∧
    (EVT.readFile (EVT.readFile EVT.init csOneF true).state csOneF true).result =
      .error (.badData "Bad number of blocks") := by
  refine ⟨by decide, by decide⟩

/-- C9, amended: the decode is a function of the bytes alone whenever
each run starts from the freshly initialized decoder state that
`EVT.__init__` provides; two such runs agree field for field.  (With a
shared decoder instance the persistent frame counter breaks this, as
the counterexample shows.) -/
theorem c9_amended :
    ∀ (f : ByteFile) (raw : Bool) (st₁ st₂ : EVTState),
      st₁ = EVT.init → st₂ = EVT.init →
      EVT.readFile st₁ f raw = EVT.readFile st₂ f raw := by
  intro f raw st₁ st₂ h₁ h₂
  rw [h₁, h₂]

/-- Witness for the amended C9 on a concrete stream. -/
theorem c9_amended_witness :
    EVT.readFile EVT.init csOneF true = EVT.readFile EVT.init csOneF true :=
  c9_amended csOneF true EVT.init EVT.init rfl rfl

/-! ## Claim C10 -/

/-- The sampling rate of a successful decode. -/
def resultRate (rr : ReadResult) : Option ℕ := rr.result.toOption.map (·.samplingrate)

/-- C10: a zero accumulated sampling rate (in particular after a first
frame whose derived rate is 0) disables the constancy check — the next
frame's rate, whatever it is, is adopted without error — and `csRate0F`
(first frame rate 0, second frame rate 10) decodes successfully into a
recording with sampling rate 10. -/
theorem c10_zero_rate_sentinel :
    (∀ r : ℕ, rateStep 0 r = .ok r) ∧
    (EVT_FRAME_HEADER.read csRate0F 2072 32 .big 0).2 = .ok ⟨0, 4, ⟨0, 0⟩, 1⟩ ∧
    (EVT_FRAME_HEADER.read csRate0F 2120 32 .big 1).2 = .ok ⟨10, 4, ⟨0, 0⟩, 1⟩ ∧
    resultRate (EVT.readFile EVT.init csRate0F true) = some 10 := by
  refine ⟨fun r => by simp [rateStep], by decide, by decide, by decide⟩

/-! ## Claim C2 -/

/-- C2, counterexample: in `csMixedOrderF` the first tag block resolves
big-endian, yet the decode succeeds although the second tag block is
stored little-endian: each tag block is decoded with its *own*
byte-order flag.  The program written to the claim's words — the first
tag's order used for every subsequent integer decode — rejects the
same stream ("Bad Tag values", since the little-endian type field read
big-endian is not a valid block type). -/
theorem c2_counterexample :
    EVT_TAG.read csMixedOrderF 0 = .ok ⟨1, 0, 0, 1, 2040, 0, 0, 0, .big⟩ ∧
    EVT_TAG.read csMixedOrderF 2056 = .ok ⟨0, 0, 0, 2, 32, 4, 0, 0, .little⟩ ∧
    isOkE (EVT.readFile EVT.init csMixedOrderF true).result = true ∧
    (EVT.readFileClaimOrder EVT.init csMixedOrderF true).result =
      .error (.badHeader "Bad Tag values") := by
  refine ⟨by decide, by decide, by decide, by decide⟩

/-! ## Claim C8 -/

/-- The derived width is always in the supported set after the
fallback. -/
theorem sampleSizeOf_mem (fs : ℕ) :
    sampleSizeOf fs = 2 ∨ sampleSizeOf fs = 3 ∨ sampleSizeOf fs = 4 := by
  unfold sampleSizeOf
  split
  · assumption
  · right; left; rfl

/-- C8: a successful 32-byte frame-header read returns the width
`(frameStatus >> 6) + 1` derived from byte 14 of the frame, with 3
substituted whenever that derivation falls outside {2,3,4} — which is
what `sampleSizeOf` computes — and the returned width always lies in
{2,3,4}; the fallback alone never makes the read fail (the witness
exhibits a successful read with a fallback width). -/
theorem c8_width_fallback :
    ∀ (f : ByteFile) (pos : ℕ) (o : ByteOrder) (nf nf' : ℕ) (r : FrameRet),
      EVT_FRAME_HEADER.read f pos 32 o nf = (nf', .ok r) →
      (r.samplesize = sampleSizeOf (f.byteAt (pos + 14)) ∧
        (r.samplesize = 2 ∨ r.samplesize = 3 ∨ r.samplesize = 4)) ∧
      (∀ fs : ℕ, ¬(fs / 64 + 1 = 2 ∨ fs / 64 + 1 = 3 ∨ fs / 64 + 1 = 4) →
        sampleSizeOf fs = 3) := by
  intro f pos o nf nf' r h
  refine ⟨?_, fun fs hfs => by unfold sampleSizeOf; rw [if_neg hfs]⟩
  unfold EVT_FRAME_HEADER.read at h
  rw [if_pos rfl] at h
  split at h
  · exact absurd h (by simp)
  · rename_i nfa fr heq
    split at h
    · exact absurd h (by simp)
    · rename_i ch hch
      simp only [Prod.mk.injEq, Except.ok.injEq] at h
      obtain ⟨-, hr⟩ := h
      subst hr
      unfold EVT_FRAME_HEADER.analyse_frame32 at heq
      split at heq
      · exact absurd heq (by simp)
      · rename_i vals hvals
        split at heq
        · simp only [Prod.mk.injEq, Except.ok.injEq] at heq
          obtain ⟨-, hfr⟩ := heq
          subst hfr
          unfold unpackFmt at hvals
          split at hvals
          · simp only [Option.some.injEq] at hvals
            subst hvals
            constructor
            · simp only [frameRecOf, unpackGo, readVal, itemSize, FRAME_STRUCT,
                List.cons_append, List.nil_append, List.getD_cons_zero, List.getD_cons_succ,
                PVal.asN, PVal.asZ, ByteFile.bytes, List.range_succ, List.range_zero,
                List.map_append, List.map_cons, List.map_nil, beVal, List.foldl_cons,
                List.foldl_nil, Nat.zero_mul, Nat.zero_add, Int.toNat_natCast]
            · exact sampleSizeOf_mem _
          · exact absurd hvals (by simp)
        · exact absurd heq (by simp)

/-- Witness for C8: a frame whose status byte derives width 1 is read
successfully and the returned width is the fallback 3. -/
theorem c8_width_fallback_witness :
    ((FrameRet.samplesize ⟨0, 3, ⟨0, 0⟩, 0⟩ =
        sampleSizeOf (ByteFile.byteAt ⟨32, fun i => if i = 0 then 3 else 0⟩ (0 + 14)) ∧
      (FrameRet.samplesize ⟨0, 3, ⟨0, 0⟩, 0⟩ = 2 ∨
        FrameRet.samplesize ⟨0, 3, ⟨0, 0⟩, 0⟩ = 3 ∨
        FrameRet.samplesize ⟨0, 3, ⟨0, 0⟩, 0⟩ = 4)) ∧
      sampleSizeOf 0 = 3) := by
  have h := c8_width_fallback ⟨32, fun i => if i = 0 then 3 else 0⟩ 0 .big 0 1
    ⟨0, 3, ⟨0, 0⟩, 0⟩ (by decide)
  exact ⟨h.1, h.2 0 (by decide)⟩

/-! ## Claim C5 -/

/-- The claim's description of one packed sample: the bytes
`[i·w, i·w + w)` of the data buffer, zero-padded to 4 bytes on the low
end for widths 2 and 3, interpreted as a signed big-endian 32-bit
integer and (for widths 2 and 3) arithmetically shifted right by 8. -/
def sampleValAt (f : ByteFile) (pos numbyte i : ℕ) : ℤ :=
  if numbyte = 2 then shr8 (toSigned 4 (beVal (f.bytes (pos + i * numbyte) numbyte ++ [0, 0])))
  else if numbyte = 3 then shr8 (toSigned 4 (beVal (f.bytes (pos + i * numbyte) numbyte ++ [0])))
  else toSigned 4 (beVal (f.bytes (pos + i * numbyte) numbyte))

/-- The claim's description of the whole data block:
`activeChannelCount` sequences, each of `samplingRate/10` samples,
where channel `k` takes the samples at flat indices `j·numchan + k`. -/
def packedMatrix (f : ByteFile) (pos : ℕ) (p : FrameRet) : List (List ℤ) :=
  (List.range p.numchan).map (fun k =>
    (List.range (p.samplingrate / 10)).map (fun j =>
      sampleValAt f pos p.samplesize (j * p.numchan + k)))

/-- C5, counterexample: a declared length that matches the expected
length exactly — `10·3 = 1·3·10`, i.e. length 3 for rate 1, width 3,
10 channels, all reachable values (rate from the 12-bit mask, default
width 3, 10 active channels, length from the tag) — is rejected with
`BadData`, because the code compares the length with the binary64
float `num = (1/10)·3·10 = 3.0000000000000004`, not with the exact
product.  So a matching block does not decode to sample sequences. -/
theorem c5_counterexample :
    EVT_DATA.read ⟨3, fun _ => 0⟩ 0 3 .big ⟨1, 3, ⟨0, 0⟩, 10⟩ =
      .error (.badData "Bad data length") ∧
    10 * 3 = 1 * 3 * 10 := by
  constructor
  · decide
  · decide

/-- C5, amended: when the declared length passes the length check the
code actually performs — the binary64 evaluation of
`(samplingRate/10)·width·channels` compares equal to the integer
length, which on geometry with `rate·width·channels ≤ 2^40` (the
program stays below `4095·4·12`) forces the exact
`10·length = rate·width·channels` — and the whole block is in the
file with a supported width 2, 3 or 4, the decoder returns exactly
`packedMatrix`: `numchan` sequences, each of `samplingRate/10`
samples, the sample at position `j` of channel `k` being decoded
big-endian from bytes
`[(j·numchan+k)·width, (j·numchan+k)·width + width)` of the buffer —
and the result is the same for every byte order passed in. -/
theorem c5_layout :
    ∀ (f : ByteFile) (pos length : ℕ) (o : ByteOrder) (p : FrameRet),
      lenEqNum length (pyNumF p.samplingrate p.samplesize p.numchan) = true →
      p.samplingrate * p.samplesize * p.numchan ≤ 2 ^ 40 →
      length ≤ f.size - pos →
      (p.samplesize = 2 ∨ p.samplesize = 3 ∨ p.samplesize = 4) →
      (EVT_DATA.read f pos length o p = .ok (packedMatrix f pos p) ∧
        (packedMatrix f pos p).length = p.numchan ∧
        (∀ k, k < p.numchan →
          ((packedMatrix f pos p).getD k []).length = p.samplingrate / 10) ∧
        (∀ k j, k < p.numchan → j < p.samplingrate / 10 →
          ((packedMatrix f pos p).getD k []).getD j 0 =
            sampleValAt f pos p.samplesize (j * p.numchan + k))) ∧
      (∀ o' : ByteOrder, EVT_DATA.read f pos length o' p = EVT_DATA.read f pos length o p) := by
  intro f pos length o p hpass hbnd hle hw
  have h10 : 10 * length = p.samplingrate * p.samplesize * p.numchan :=
    pyNum_decides _ _ _ _ hbnd hpass
  have hbound : ∀ i : ℕ, i + 1 ≤ p.samplingrate / 10 * p.numchan →
      i * p.samplesize + p.samplesize ≤ length := by
    intro i hi
    have h1 : (i + 1) * p.samplesize ≤ p.samplingrate / 10 * p.numchan * p.samplesize :=
      Nat.mul_le_mul_right _ hi
    have h2 : 10 * (p.samplingrate / 10 * p.numchan * p.samplesize) ≤ 10 * length := by
      have h3 : 10 * (p.samplingrate / 10) ≤ p.samplingrate := by
        have := Nat.div_mul_le_self p.samplingrate 10
        omega
      calc 10 * (p.samplingrate / 10 * p.numchan * p.samplesize)
          = 10 * (p.samplingrate / 10) * p.numchan * p.samplesize := by ring
        _ ≤ p.samplingrate * p.numchan * p.samplesize :=
            Nat.mul_le_mul_right _ (Nat.mul_le_mul_right _ h3)
        _ = p.samplingrate * p.samplesize * p.numchan := by ring
        _ = 10 * length := h10.symm
    have h4 : p.samplingrate / 10 * p.numchan * p.samplesize ≤ length := by omega
    calc i * p.samplesize + p.samplesize = (i + 1) * p.samplesize := by ring
      _ ≤ p.samplingrate / 10 * p.numchan * p.samplesize := h1
      _ ≤ length := h4
  have hsample : ∀ k j, k < p.numchan → j < p.samplingrate / 10 →
      decodeSample p.samplesize
        (f.bytes (pos + min ((j * p.numchan + k) * p.samplesize) (f.avail pos length))
          (min ((j * p.numchan + k) * p.samplesize + p.samplesize) (f.avail pos length) -
            min ((j * p.numchan + k) * p.samplesize) (f.avail pos length))) =
        .ok (sampleValAt f pos p.samplesize (j * p.numchan + k)) := by
    intro k j hk hj
    have havail : f.avail pos length = length := by
      unfold ByteFile.avail; omega
    have hi : (j * p.numchan + k) + 1 ≤ p.samplingrate / 10 * p.numchan := by
      have : (j + 1) * p.numchan ≤ p.samplingrate / 10 * p.numchan :=
        Nat.mul_le_mul_right _ hj
      nlinarith [Nat.mul_le_mul_right p.numchan (Nat.succ_le_of_lt hj)]
    have hend := hbound (j * p.numchan + k) hi
    rw [havail]
    rw [Nat.min_eq_left (by omega), Nat.min_eq_left (by omega)]
    have hcut : (j * p.numchan + k) * p.samplesize + p.samplesize -
        (j * p.numchan + k) * p.samplesize = p.samplesize := by omega
    rw [hcut]
    rcases hw with h2 | h3 | h4
    · rw [h2]
      have hlen4 : (f.bytes (pos + (j * p.numchan + k) * 2) 2 ++ [0, 0]).length = 4 := by
        simp [ByteFile.bytes]
      simp [decodeSample, sampleValAt, unpack_i32be, hlen4, Except.map]
    · rw [h3]
      have hlen4 : (f.bytes (pos + (j * p.numchan + k) * 3) 3 ++ [0]).length = 4 := by
        simp [ByteFile.bytes]
      simp [decodeSample, sampleValAt, unpack_i32be, hlen4, Except.map]
    · rw [h4]
      have hlen4 : (f.bytes (pos + (j * p.numchan + k) * 4) 4).length = 4 := by
        simp [ByteFile.bytes]
      simp [decodeSample, sampleValAt, unpack_i32be, hlen4, Except.map]
  have hmain : ∀ o' : ByteOrder, EVT_DATA.read f pos length o' p = .ok (packedMatrix f pos p) := by
    intro o'
    simp only [EVT_DATA.read, packedMatrix, hpass]
    rw [if_neg (fun hx => Bool.noConfusion hx)]
    refine mapM_ok_of _ _ _ (fun k hk => ?_)
    refine mapM_ok_of _ _ _ (fun j hj => ?_)
    exact hsample k j (List.mem_range.mp hk) (List.mem_range.mp hj)
  refine ⟨⟨hmain o, ?_, ?_, ?_⟩, fun o' => (hmain o').trans (hmain o).symm⟩
  · simp [packedMatrix]
  · intro k hk
    simp [packedMatrix, List.getD, List.getElem?_range, hk]
  · intro k j hk hj
    simp [packedMatrix, List.getD, List.getElem?_range, hk, hj]

/-- Witness for C5: a 2-byte all-0xFF block, rate 10, width 2, one
channel. -/
theorem c5_layout_witness :
    EVT_DATA.read ⟨2, fun _ => 255⟩ 0 2 .big ⟨10, 2, ⟨0, 0⟩, 1⟩ =
      .ok (packedMatrix ⟨2, fun _ => 255⟩ 0 ⟨10, 2, ⟨0, 0⟩, 1⟩) ∧
    EVT_DATA.read ⟨2, fun _ => 255⟩ 0 2 .little ⟨10, 2, ⟨0, 0⟩, 1⟩ =
      EVT_DATA.read ⟨2, fun _ => 255⟩ 0 2 .big ⟨10, 2, ⟨0, 0⟩, 1⟩ := by
  have h := c5_layout ⟨2, fun _ => 255⟩ 0 2 .big ⟨10, 2, ⟨0, 0⟩, 1⟩
    (by decide) (by decide) (by decide) (by decide)
  exact ⟨h.1.1, h.2 .little⟩

/-! ## Claim C2, amended -/

/-- The loop bodies of `readFile` and of the amended-claim program are
the same function: `EVT_DATA.read` never looks at the byte order it is
handed, so passing the resolved order or passing big-endian is the
same program. -/
theorem readStep_eq_amd (o : ByteOrder) (f : ByteFile) :
    readStep o f = readStepAmd o f := by
  funext st acc pos
  rfl

/-- C2, amended: `readFile` is the program that resolves the byte
order once from the first tag block and uses it for the file-header
and every frame-header decode, while each later tag block re-resolves
its own flag and the data samples are decoded big-endian
unconditionally (`readFileAmd` spells that out). -/
theorem c2_amended :
    ∀ (st : EVTState) (f : ByteFile) (raw : Bool),
      EVT.readFile st f raw = EVT.readFileAmd st f raw := by
  intro st f raw
  unfold EVT.readFile EVT.readFileAmd readLoop
  simp only [readStep_eq_amd]

end Evt
